import Mathlib

/-!
# movie-picker: verification of the voting & meeting-resolution engine

Shallow embedding of the movie-picker backend (the SQLite variant in
`server.js` and the Firestore variant in `functions/index.js`). Both
variants implement the same logical operations over the same logical
state (movies, meetings, ballots with embedded rank entries, reviews);
where the two variants genuinely differ (the scoped results query) both
are embedded separately and named accordingly.

Representation notes:
* `ballot_votes` rows of the SQLite schema are represented as the
  `votes` list of their owning ballot (each row carries `ballot_id`,
  `movie_id`, `rank`; the foreign key with `ON DELETE CASCADE` makes the
  rows live and die with their ballot, which the embedded list does by
  construction).
* SQL aggregates and Firestore queries are translated into folds over
  the corresponding row lists; JS objects used as counters
  (`dateCounts`, `movieScores`) are association lists in first-insertion
  order, matching JS object iteration order for the non-integer-like
  string keys these objects actually use (date strings, Firestore ids).
* JS truthiness: a missing/0 numeric field is modelled as the value 0, a
  missing string as `""`, a missing object field as `Option.none`.
* `db.transaction` of better-sqlite3 rolls the whole transaction back
  when the wrapped function throws; an operation whose transaction
  aborts is modelled as returning `Except.error` with no state, so the
  caller keeps the pre-call state.
-/

/-- One rank entry: a `(movie_id, rank)` pair. In the SQLite variant this
is a `ballot_votes` row (minus its surrogate id), in the Firestore
variant an element of the ballot's `votes` array. -/
structure RankEntry where
  movieId : Nat
  rank : Nat
deriving Repr, DecidableEq

/-- A ballot row/document: `username`, `meeting_id`, optional
`availability` list of day strings, and its rank entries. -/
structure Ballot where
  id : Nat
  username : String
  meetingId : Nat
  availability : Option (List String)
  votes : List RankEntry
deriving Repr, DecidableEq

/-- A movie row/document (fields irrelevant to the claims elided to the
identity and title). -/
structure Movie where
  id : Nat
  title : String
deriving Repr, DecidableEq

/-- A meeting row/document. -/
structure Meeting where
  id : Nat
  name : Option String
  date : Option String
  candidateDays : List String
  allowedMovieIds : Option (List Nat)
  votingOpen : Bool
  watchedMovieId : Option Nat
deriving Repr, DecidableEq

/-- A review row/document (only the fields the frame claims mention). -/
structure Review where
  id : Nat
  movieId : Nat
  score : Nat
deriving Repr, DecidableEq

/-- The persisted state: the four tables/collections plus the id
counters of the autoincrement columns. -/
structure State where
  movies : List Movie
  meetings : List Meeting
  ballots : List Ballot
  reviews : List Review
  nextMovieId : Nat
  nextMeetingId : Nat
  nextBallotId : Nat
deriving Repr, DecidableEq

/-- API error taxonomy, mirroring the HTTP statuses the handlers send. -/
inductive ApiErr where
  | badRequest (msg : String)
  | unauthorized (msg : String)
  | notFound (msg : String)
  | serverError (msg : String)
deriving Repr, DecidableEq

deriving instance DecidableEq for Except

/-- `SELECT * FROM meetings WHERE id = ?` / `meetings.doc(id).get()`. -/
def findMeeting (st : State) (mid : Nat) : Option Meeting :=
  st.meetings.find? (fun m => m.id == mid)

/-- `SELECT * FROM movies WHERE id = ?` / `movies.doc(id).get()`. -/
def findMovie (st : State) (mid : Nat) : Option Movie :=
  st.movies.find? (fun m => m.id == mid)

/-- `UPDATE meetings SET ... WHERE id = ?`: apply `f` to the meeting with
id `mid`, leave every other row unchanged. -/
def updateMeeting (st : State) (mid : Nat) (f : Meeting → Meeting) : State :=
  { st with meetings := st.meetings.map (fun m => if m.id == mid then f m else m) }

/-! ## Results computation (`GET /api/results`)

`server.js` lines 280–310. The scoped query is

```
FROM movies m
LEFT JOIN ballot_votes bv ON bv.movie_id = m.id
LEFT JOIN ballots b ON b.id = bv.ballot_id AND b.meeting_id = ?
GROUP BY m.id
```

For a fixed movie the row set is: one row per `ballot_votes` row with
`bv.movie_id = m.id` — the meeting test sits in the second LEFT JOIN's
ON clause, so a vote whose ballot belongs to a different meeting is NOT
dropped; it merely gets NULL `b` columns. Each row is therefore a vote
paired with `b.id` when the owning ballot matches the scope and `none`
otherwise. (A movie with no votes gets a single all-NULL row, which
contributes nothing to any of the three aggregates; it is omitted from
the row list, with `COALESCE(SUM ..., 0)` matching the empty fold.) -/
def scopedVoteRows (st : State) (mid : Nat) (movieId : Nat) :
    List (RankEntry × Option Nat) :=
  st.ballots.flatMap (fun b =>
    (b.votes.filter (fun v => v.movieId == movieId)).map (fun v =>
      (v, if b.meetingId == mid then some b.id else none)))

/-- `COALESCE(SUM(4 - bv.rank), 0) AS score` of the scoped query. -/
def sqlScopedScore (st : State) (mid : Nat) (movieId : Nat) : Int :=
  (scopedVoteRows st mid movieId).foldl (fun acc r => acc + (4 - (r.1.rank : Int))) 0

/-- `COUNT(bv.id) AS vote_count` of the scoped query (counts the
non-NULL `bv` rows). -/
def sqlScopedVoteCount (st : State) (mid : Nat) (movieId : Nat) : Nat :=
  (scopedVoteRows st mid movieId).length

/-- `COUNT(DISTINCT b.id) AS ballots` of the scoped query (NULLs are not
counted; distinct ballot ids among the rows whose ballot matched the
meeting scope). -/
def sqlScopedBallots (st : State) (mid : Nat) (movieId : Nat) : Nat :=
  ((scopedVoteRows st mid movieId).filterMap Prod.snd).dedup.length

/-- Firestore variant of the scoped results score (`functions/index.js`
lines 696–752): ballots are first filtered by
`where('meeting_id', '==', meetingId)`, then every vote of a surviving
ballot adds `4 - rank` to its movie (votes whose movie id is unknown are
skipped by the `movieScores[vote.movie_id] !== undefined` test; for a
movie present in `movies` that test always passes). -/
def fsScopedScore (st : State) (mid : Nat) (movieId : Nat) : Int :=
  if (st.movies.map Movie.id).contains movieId then
    ((st.ballots.filter (fun b => b.meetingId == mid)).flatMap Ballot.votes).foldl
      (fun acc v => if v.movieId == movieId then acc + (4 - (v.rank : Int)) else acc) 0
  else 0

/-- Modelled from the spec: "for any movie, its score from `score()`
equals the sum of `(4 - rank)` over every ballot referencing it,
restricted to the ballot's meeting when scoped" — the per-meeting Borda
sum the claim asserts the endpoint computes. -/
def specScopedScore (st : State) (mid : Nat) (movieId : Nat) : Int :=
  ((st.ballots.filter (fun b => b.meetingId == mid)).flatMap Ballot.votes).foldl
    (fun acc v => if v.movieId == movieId then acc + (4 - (v.rank : Int)) else acc) 0

/-! ## Ballot submission (`POST /api/votes`)

`server.js` lines 240–277 / `functions/index.js` lines 650–693. Both
variants run the identical validation sequence (JS truthiness of the
checked fields: `!username` is true exactly for the empty string,
`!meetingId`, `!r.rank`, `!r.movieId` exactly for the number 0), but
their persistence differs:

* the Firestore variant (`submitBallot`) checks the entries and then
  performs one `ballots.add` — Firestore enforces no referential
  constraints, so a rank entry's `movie_id` is stored whether or not a
  movie document with that id exists;
* the SQLite variant (`submitBallotSql`) inserts the ballot row and its
  `ballot_votes` rows inside one `db.transaction`; besides the
  per-entry `if (!r.rank || !r.movieId) throw`, each
  `INSERT INTO ballot_votes` is subject to the enforced foreign key
  `movie_id REFERENCES movies(id)` (better-sqlite3 builds SQLite with
  `SQLITE_DEFAULT_FOREIGN_KEYS=1`), so ranking a movie id absent from
  `movies` throws, aborts and rolls back the whole transaction.

Either way a rejection produces no state. -/
structure VotePayload where
  username : String
  ranks : List RankEntry
  meetingId : Nat
  availability : Option (List String)
deriving Repr, DecidableEq

/-- The per-entry check of the insert loop: each entry needs a truthy
`rank` and `movieId`; on success the stored `(movie_id, rank)` rows are
exactly the payload entries. -/
def checkVotes : List RankEntry → Except String (List RankEntry)
  | [] => .ok []
  | r :: rest =>
    if r.rank == 0 || r.movieId == 0 then .error "invalid rank entry"
    else match checkVotes rest with
      | .ok vs => .ok (r :: vs)
      | .error e => .error e

/-- The per-entry step of the SQLite insert loop: the truthiness check,
then the `INSERT INTO ballot_votes` whose enforced foreign key rejects a
`movie_id` absent from `movies`. -/
def checkVotesFk (movieIds : List Nat) : List RankEntry → Except String (List RankEntry)
  | [] => .ok []
  | r :: rest =>
    if r.rank == 0 || r.movieId == 0 then .error "invalid rank entry"
    else if !(movieIds.contains r.movieId) then .error "FOREIGN KEY constraint failed"
    else match checkVotesFk movieIds rest with
      | .ok vs => .ok (r :: vs)
      | .error e => .error e

/-- `POST /api/votes`, Firestore variant (`functions/index.js`).
Returns the new state and the new ballot id, or the 400 error the
handler sends; an error means nothing was written and the pre-call
state is kept. No referential check on the ranked movie ids. -/
def submitBallot (st : State) (p : VotePayload) : Except ApiErr (State × Nat) :=
  if p.username == "" then .error (.badRequest "username is required")
  else if p.ranks.length == 0 then .error (.badRequest "at least one rank required")
  else if p.ranks.length > 3 then .error (.badRequest "maximum 3 ranks allowed")
  else if p.meetingId == 0 then .error (.badRequest "meetingId is required")
  else match findMeeting st p.meetingId with
    | none => .error (.badRequest "meeting not found")
    | some m =>
      if !m.votingOpen then .error (.badRequest "voting is closed for this meeting")
      else if !(p.ranks.map RankEntry.movieId).Nodup then
        .error (.badRequest "duplicate movie in ranks")
      else match checkVotes p.ranks with
        | .error e => .error (.badRequest e)
        | .ok vs =>
          .ok ({ st with
                  ballots := st.ballots ++
                    [{ id := st.nextBallotId, username := p.username,
                       meetingId := p.meetingId, availability := p.availability,
                       votes := vs }],
                  nextBallotId := st.nextBallotId + 1 },
               st.nextBallotId)

/-- `POST /api/votes`, SQLite variant (`server.js`): the same validation
sequence, then the insert transaction whose per-entry step is
`checkVotesFk` — the truthiness throw plus the enforced
`ballot_votes.movie_id` foreign key. A thrown entry rolls the whole
transaction back, so an error again carries no state. -/
def submitBallotSql (st : State) (p : VotePayload) : Except ApiErr (State × Nat) :=
  if p.username == "" then .error (.badRequest "username is required")
  else if p.ranks.length == 0 then .error (.badRequest "at least one rank required")
  else if p.ranks.length > 3 then .error (.badRequest "maximum 3 ranks allowed")
  else if p.meetingId == 0 then .error (.badRequest "meetingId is required")
  else match findMeeting st p.meetingId with
    | none => .error (.badRequest "meeting not found")
    | some m =>
      if !m.votingOpen then .error (.badRequest "voting is closed for this meeting")
      else if !(p.ranks.map RankEntry.movieId).Nodup then
        .error (.badRequest "duplicate movie in ranks")
      else match checkVotesFk (st.movies.map Movie.id) p.ranks with
        | .error e => .error (.badRequest e)
        | .ok vs =>
          .ok ({ st with
                  ballots := st.ballots ++
                    [{ id := st.nextBallotId, username := p.username,
                       meetingId := p.meetingId, availability := p.availability,
                       votes := vs }],
                  nextBallotId := st.nextBallotId + 1 },
               st.nextBallotId)

/-- The validator contract as the claim lists it: voter name non-empty,
rank list length in [1,3], target meeting exists with voting open,
pairwise distinct movie ids, every entry with a present (nonzero) rank
and movie reference. -/
def ValidBallot (st : State) (p : VotePayload) : Prop :=
  p.username ≠ "" ∧ 1 ≤ p.ranks.length ∧ p.ranks.length ≤ 3 ∧
  (∃ m, findMeeting st p.meetingId = some m ∧ m.votingOpen = true) ∧
  (p.ranks.map RankEntry.movieId).Nodup ∧
  ∀ r ∈ p.ranks, r.rank ≠ 0 ∧ r.movieId ≠ 0

/-! ## Availability tally and date choice (resolver step 1)

`functions/index.js` lines 495–518 / `server.js` lines 542–563: the
`dateCounts` object maps each date string listed by a ballot of the
meeting (ballots with NULL availability are skipped by the query) to the
number of listing ballots; it is modelled as an association list in
first-insertion order (JS object iteration order for these
non-integer-like keys). The `for (const [d, c] of Object.entries(...))`
loop keeps the first entry whose count strictly exceeds the running
maximum (initially 0); `if (chosenDate)` then writes the date, so the
(degenerate) empty-string key would never be written. -/
def bumpDate : List (String × Nat) → String → List (String × Nat)
  | [], d => [(d, 1)]
  | (k, c) :: rest, d =>
    if k == d then (k, c + 1) :: rest else (k, c) :: bumpDate rest d

/-- `dateCounts` for the meeting's ballots. -/
def tallyDates (st : State) (mid : Nat) : List (String × Nat) :=
  (st.ballots.filter (fun b => b.meetingId == mid && b.availability.isSome)).foldl
    (fun acc b => (b.availability.getD []).foldl bumpDate acc) []

/-- The `chosenDate/maxCount` loop. -/
def chooseDateAux : Option String × Nat → List (String × Nat) → Option String × Nat
  | acc, [] => acc
  | (cd, mc), (d, c) :: rest =>
    if c > mc then chooseDateAux (some d, c) rest else chooseDateAux (cd, mc) rest

def chooseDate (counts : List (String × Nat)) : Option String :=
  (chooseDateAux (none, 0) counts).1

/-! ## Borda scorer and winner choice (resolver step 2)

`functions/index.js` lines 520–556: `movieScores`/`movieVoteCounts` are
built by one pass over the meeting's ballots' votes (modelled as a
single association list in first-insertion order carrying both
aggregates); the selection loop starts from
`topMovieId = null, topScore = -1, topVoteCount = 0` and replaces the
running best exactly when
`score > topScore || (score === topScore && voteCount > topVoteCount)`.
The winner is written only when `topMovieId && topVoteCount > 0`
(Firestore doc ids are nonempty strings, so the first conjunct is
null-ness). The `server.js` SQL (lines 565–581,
`SUM(CASE WHEN b.id IS NOT NULL ...)` with
`ORDER BY score DESC, vote_count DESC LIMIT 1` and the
`Number(top.vote_count) > 0` guard) computes per-meeting aggregates the
same way and also writes a (score, vote_count)-lexicographically maximal
movie only when its per-meeting vote count is positive. -/
structure MEntry where
  movieId : Nat
  score : Int
  count : Nat
deriving Repr, DecidableEq

/-- Add `pts` points and one vote to `m`'s entry (first occurrence
appends, matching JS object key insertion). -/
def bumpMovie : List MEntry → Nat → Int → List MEntry
  | [], m, pts => [⟨m, pts, 1⟩]
  | e :: rest, m, pts =>
    if e.movieId == m then ⟨e.movieId, e.score + pts, e.count + 1⟩ :: rest
    else e :: bumpMovie rest m pts

/-- All rank entries of the meeting's ballots, in ballot order. -/
def votesOf (st : State) (mid : Nat) : List RankEntry :=
  (st.ballots.filter (fun b => b.meetingId == mid)).flatMap Ballot.votes

/-- `movieScores` + `movieVoteCounts` for the meeting. -/
def scoreEntries (st : State) (mid : Nat) : List MEntry :=
  (votesOf st mid).foldl (fun acc v => bumpMovie acc v.movieId (4 - (v.rank : Int))) []

/-- Running best of the winner-selection loop. -/
structure TopAcc where
  movieId : Option Nat
  score : Int
  count : Nat
deriving Repr, DecidableEq

def pickTopAux : TopAcc → List MEntry → TopAcc
  | acc, [] => acc
  | acc, e :: rest =>
    if e.score > acc.score ∨ (e.score = acc.score ∧ e.count > acc.count) then
      pickTopAux ⟨some e.movieId, e.score, e.count⟩ rest
    else pickTopAux acc rest

def pickTop (l : List MEntry) : TopAcc := pickTopAux ⟨none, -1, 0⟩ l

/-- The movie id the resolver will write, if any: the selection loop's
result guarded by `topMovieId && topVoteCount > 0`. -/
def resolveWinner (st : State) (mid : Nat) : Option Nat :=
  let top := pickTop (scoreEntries st mid)
  match top.movieId with
  | some w => if top.count > 0 then some w else none
  | none => none

/-- The date the resolver will write, if any: the count-loop's choice
guarded by JS truthiness (`if (chosenDate)`). -/
def resolveDate (st : State) (mid : Nat) : Option String :=
  match chooseDate (tallyDates st mid) with
  | some d => if d == "" then none else some d
  | none => none

/-- The whole resolution step run at the open→closed transition: write
the chosen date and winning movie (each only when present) onto the
meeting record; everything else is untouched. -/
def resolveMeetingFs (st : State) (mid : Nat) : State :=
  updateMeeting st mid (fun m =>
    { m with
      date := match resolveDate st mid with
        | some d => some d
        | none => m.date,
      watchedMovieId := match resolveWinner st mid with
        | some w => some w
        | none => m.watchedMovieId })

/-! ## Meeting update (`PATCH /api/meetings/:id`)

`server.js` lines 517–595 / `functions/index.js` lines 463–582. The
body may carry `voting_open`, `name`, `candidate_days`,
`allowed_movie_ids`; an `Option` field is `some` exactly when
`typeof field !== 'undefined'`, with JS truthiness already applied
(`voting_open ? 1 : 0` makes the stored flag a `Bool`). Resolution runs
exactly when `willCloseVoting`, i.e. the body sets `voting_open` to a
falsy value while the stored flag was truthy; the whole resolution step
sits in a `try { ... } catch (e) { /* ignore */ }`, after which the
handler re-reads the meeting and answers 200 with it. -/
structure PatchBody where
  votingOpen : Option Bool
  name : Option (Option String)
  candidateDays : Option (List String)
  allowedMovieIds : Option (Option (List Nat))
deriving Repr, DecidableEq

def willCloseVoting (m : Meeting) (body : PatchBody) : Bool :=
  match body.votingOpen with
  | some v => m.votingOpen && !v
  | none => false

/-- `if (updates.length === 0) return 400`. -/
def hasFields (body : PatchBody) : Bool :=
  body.votingOpen.isSome || body.name.isSome || body.candidateDays.isSome ||
    body.allowedMovieIds.isSome

/-- The `UPDATE meetings SET <fields>` part of the handler. -/
def applyPatchFields (m : Meeting) (body : PatchBody) : Meeting :=
  { m with
    votingOpen := body.votingOpen.getD m.votingOpen,
    name := body.name.getD m.name,
    candidateDays := body.candidateDays.getD m.candidateDays,
    allowedMovieIds := body.allowedMovieIds.getD m.allowedMovieIds }

/-- State after the field update, before any resolution. -/
def patchFieldsState (st : State) (mid : Nat) (body : PatchBody) : State :=
  updateMeeting st mid (fun m => applyPatchFields m body)

/-- `PATCH /api/meetings/:id` parameterised by the resolution step: `ρ`
returns the state its writes produced together with the error it threw,
if any, which the `catch` block drops — the state reached so far is kept
(never rolled back) and the error is never surfaced. -/
def patchMeetingRaw (ρ : State → Nat → State × Option String)
    (st : State) (mid : Nat) (body : PatchBody) :
    Except ApiErr (State × Meeting) :=
  match findMeeting st mid with
  | none => .error (.notFound "Meeting not found")
  | some m =>
    if !hasFields body then .error (.badRequest "no valid fields to update")
    else
      let st1 := patchFieldsState st mid body
      let st2 := if willCloseVoting m body then (ρ st1 mid).1 else st1
      .ok (st2, (findMeeting st2 mid).getD (applyPatchFields m body))

/-- The deployed handler: the resolution step is `resolveMeetingFs`,
which throws nothing. -/
def patchMeeting (st : State) (mid : Nat) (body : PatchBody) :
    Except ApiErr (State × Meeting) :=
  patchMeetingRaw (fun s i => (resolveMeetingFs s i, none)) st mid body

/-! ## Admin authentication (`requireAdmin` middleware)

`server.js` lines 433–442 / `functions/index.js` lines 198–209. The
token is read from the `X-Admin-Token` header (or a Bearer header); an
absent header yields the empty string. The middleware answers 401 and
stops — before the route handler runs — when the token is empty, not in
the in-memory `adminTokens` map, or past its stored expiry
(`Date.now() > exp`). -/
def lookupToken (tokens : List (String × Nat)) (t : String) : Option Nat :=
  (tokens.find? (fun p => p.1 == t)).map Prod.snd

/-- `some errorMessage` when the middleware answers 401, `none` when the
request may proceed. -/
def requireAdminCheck (tokens : List (String × Nat)) (now : Nat) (token : String) :
    Option String :=
  if token == "" then some "admin token required"
  else match lookupToken tokens token with
    | none => some "invalid token"
    | some exp => if now > exp then some "token expired" else none

/-- Middleware combinator: run the handler only when `requireAdminCheck`
passes. -/
def guardAdmin (tokens : List (String × Nat)) (now : Nat) (token : String)
    (k : Except ApiErr α) : Except ApiErr α :=
  match requireAdminCheck tokens now token with
  | some e => .error (.unauthorized e)
  | none => k

/-! ## Movie creation (`POST /api/movies`)

`server.js` lines 202–237 / `functions/index.js` lines 254–302. NOTE:
neither variant mounts `requireAdmin` on this route — any caller may
create a movie. The handler requires a non-empty title and a poster
matching `/imdb\.com\/title\/(tt\d+)/i`; the TMDB enrichment is network
plumbing outside the core and does not affect acceptance (on any fetch
outcome the movie row is inserted), so the stored poster is modelled as
the submitted link. -/
structure MoviePayload where
  title : String
  poster : String
deriving Repr, DecidableEq

/-- Case-insensitive match of one pattern character (the regex's `/i`
flag on ASCII letters): the input character equals the lower-case
pattern character or is its upper-case variant. -/
def ciEq (p c : Char) : Bool :=
  c == p || (p.isAlpha && c.toNat + 32 == p.toNat)

/-- Match the pattern prefix case-insensitively, returning the rest of
the input on success. -/
def matchCI : List Char → List Char → Option (List Char)
  | [], cs => some cs
  | _ :: _, [] => none
  | p :: ps, c :: cs => if ciEq p c then matchCI ps cs else none

/-- `/imdb\.com\/title\/(tt\d+)/i` anchored at the head: the pattern
`imdb.com/title/tt` followed by at least one digit. -/
def isImdbAt (cs : List Char) : Bool :=
  match matchCI "imdb.com/title/tt".toList cs with
  | some (d :: _) => d.isDigit
  | _ => false

/-- Unanchored regex search: the pattern matches at some position. -/
def hasImdbAt : List Char → Bool
  | [] => isImdbAt []
  | c :: rest => isImdbAt (c :: rest) || hasImdbAt rest

def hasImdbTitleLink (s : String) : Bool :=
  hasImdbAt s.toList

/-- `POST /api/movies` (no authentication on the route). -/
def createMovie (st : State) (p : MoviePayload) : Except ApiErr (State × Movie) :=
  if p.title == "" then .error (.badRequest "title is required")
  else if !hasImdbTitleLink p.poster then
    .error (.badRequest "poster must be an IMDB movie link (https://www.imdb.com/title/tt...)")
  else
    let mv : Movie := { id := st.nextMovieId, title := p.title }
    .ok ({ st with movies := st.movies ++ [mv], nextMovieId := st.nextMovieId + 1 }, mv)

/-! ## Meeting creation, watched marking -/

structure MeetingPayload where
  name : Option String
  date : Option String
  candidateDays : List String
  allowedMovieIds : Option (List Nat)
  votingOpen : Bool
  watchedMovieId : Option Nat
deriving Repr, DecidableEq

/-- `POST /api/meetings` handler body (behind `requireAdmin`). -/
def createMeeting (st : State) (p : MeetingPayload) : Except ApiErr (State × Meeting) :=
  let m : Meeting :=
    { id := st.nextMeetingId, name := p.name, date := p.date,
      candidateDays := p.candidateDays, allowedMovieIds := p.allowedMovieIds,
      votingOpen := p.votingOpen, watchedMovieId := p.watchedMovieId }
  .ok ({ st with meetings := st.meetings ++ [m], nextMeetingId := st.nextMeetingId + 1 }, m)

/-- `POST /api/meetings/:id/watched` handler body (behind
`requireAdmin`): set or clear the watched movie. -/
def markWatched (st : State) (mid : Nat) (movieId : Option Nat) :
    Except ApiErr State :=
  match findMeeting st mid with
  | none => .error (.notFound "meeting not found")
  | some _ =>
    match movieId with
    | some w =>
      match findMovie st w with
      | none => .error (.badRequest "movie not found")
      | some _ => .ok (updateMeeting st mid (fun m => { m with watchedMovieId := some w }))
    | none => .ok (updateMeeting st mid (fun m => { m with watchedMovieId := none }))

/-! ## Movie deletion (`DELETE /api/movies/:id`)

`server.js` lines 598–640: 404 when the movie row is missing; 400
`ConflictError` when some meeting has it as `watched_movie_id` (checked
before the transaction — nothing has been written yet); otherwise one
transaction prunes the id from every meeting's `allowed_movie_ids` that
contains it and deletes the movie row, whose `ON DELETE CASCADE` foreign
key also removes its `ballot_votes` rows. -/
def pruneAllowed (movieId : Nat) (m : Meeting) : Meeting :=
  match m.allowedMovieIds with
  | some l =>
    if movieId ∈ l then { m with allowedMovieIds := some (l.filter (fun x => x ≠ movieId)) }
    else m
  | none => m

def deleteMovieSql (st : State) (movieId : Nat) : Except ApiErr State :=
  match findMovie st movieId with
  | none => .error (.notFound "Movie not found")
  | some _ =>
    if st.meetings.any (fun m => m.watchedMovieId == some movieId) then
      .error (.badRequest "Cannot delete movie: it is marked as watched in a meeting")
    else
      .ok { st with
        meetings := st.meetings.map (pruneAllowed movieId),
        movies := st.movies.filter (fun mv => mv.id ≠ movieId),
        ballots := st.ballots.map (fun b =>
          { b with votes := b.votes.filter (fun v => v.movieId ≠ movieId) }) }

/-! ## Meeting deletion (`DELETE /api/meetings/:id`)

`server.js` lines 364–394 (and the duplicate route at 488–514) /
`functions/index.js` lines 584–610: 404 when the meeting is missing;
otherwise one transaction/batch deletes every ballot with this
`meeting_id` (their rank entries go with them) and the meeting row.
Movies, reviews, other meetings and other meetings' ballots are not
touched. -/
def deleteMeetingSql (st : State) (mid : Nat) : Except ApiErr State :=
  match findMeeting st mid with
  | none => .error (.notFound "Meeting not found")
  | some _ =>
    .ok { st with
      ballots := st.ballots.filter (fun b => b.meetingId ≠ mid),
      meetings := st.meetings.filter (fun m => m.id ≠ mid) }

/-! ## Routes as mounted (middleware chain included) -/

def createMovieApi (_tokens : List (String × Nat)) (_now : Nat) (_token : String)
    (st : State) (p : MoviePayload) : Except ApiErr (State × Movie) :=
  createMovie st p

def createMeetingApi (tokens : List (String × Nat)) (now : Nat) (token : String)
    (st : State) (p : MeetingPayload) : Except ApiErr (State × Meeting) :=
  guardAdmin tokens now token (createMeeting st p)

def patchMeetingApi (tokens : List (String × Nat)) (now : Nat) (token : String)
    (st : State) (mid : Nat) (body : PatchBody) : Except ApiErr (State × Meeting) :=
  guardAdmin tokens now token (patchMeeting st mid body)

def deleteMeetingApi (tokens : List (String × Nat)) (now : Nat) (token : String)
    (st : State) (mid : Nat) : Except ApiErr State :=
  guardAdmin tokens now token (deleteMeetingSql st mid)

def deleteMovieApi (tokens : List (String × Nat)) (now : Nat) (token : String)
    (st : State) (movieId : Nat) : Except ApiErr State :=
  guardAdmin tokens now token (deleteMovieSql st movieId)

def markWatchedApi (tokens : List (String × Nat)) (now : Nat) (token : String)
    (st : State) (mid : Nat) (movieId : Option Nat) : Except ApiErr State :=
  guardAdmin tokens now token (markWatched st mid movieId)

/-! ## Concrete fixtures for counterexamples and witnesses -/

/-- A meeting with the schema defaults. -/
def mkMeeting (i : Nat) (b : Bool) : Meeting :=
  { id := i, name := none, date := none, candidateDays := [],
    allowedMovieIds := none, votingOpen := b, watchedMovieId := none }

/-- One movie, two meetings; the only ballot was cast in meeting 2 and
ranks movie 1 first. -/
def crossMeetingSt : State :=
  { movies := [⟨1, "A"⟩], meetings := [mkMeeting 1 true, mkMeeting 2 true],
    ballots := [{ id := 1, username := "u", meetingId := 2, availability := none,
                  votes := [⟨1, 1⟩] }],
    reviews := [], nextMovieId := 2, nextMeetingId := 3, nextBallotId := 2 }

/-- The spec's worked scenario: three ballots in meeting 1 (movie 1:
rank 1 + rank 3 + rank 2 = 6 pts / 3 votes, movie 2: 5 pts / 2 votes,
movie 3: 3 pts / 1 vote) with availabilities tying the two candidate
days at 2 each. -/
def scenarioSt : State :=
  { movies := [⟨1, "one"⟩, ⟨2, "two"⟩, ⟨3, "three"⟩],
    meetings := [(mkMeeting 1 true)],
    ballots := [
      { id := 1, username := "A", meetingId := 1,
        availability := some ["2024-01-15"], votes := [⟨1, 1⟩, ⟨2, 2⟩] },
      { id := 2, username := "B", meetingId := 1,
        availability := some ["2024-01-15", "2024-01-16"], votes := [⟨2, 1⟩, ⟨1, 3⟩] },
      { id := 3, username := "C", meetingId := 1,
        availability := some ["2024-01-16"], votes := [⟨3, 1⟩, ⟨1, 2⟩] }],
    reviews := [], nextMovieId := 4, nextMeetingId := 2, nextBallotId := 4 }

/-- An empty store with one open meeting, for submission fixtures. -/
def oneMeetingSt : State :=
  { movies := [⟨1, "A"⟩], meetings := [mkMeeting 1 true], ballots := [],
    reviews := [], nextMovieId := 2, nextMeetingId := 2, nextBallotId := 1 }

/-- A payload the validator accepts although its only entry has rank 5
and its availability lists four days. -/
def rankFivePayload : VotePayload :=
  { username := "alice", ranks := [⟨7, 5⟩], meetingId := 1,
    availability := some ["a", "b", "c", "d"] }

/-- A well-shaped payload (single rank-1 entry). -/
def okPayload : VotePayload :=
  { username := "alice", ranks := [⟨1, 1⟩], meetingId := 1, availability := none }

/-- A payload satisfying every item of the claimed validator contract
whose single (rank-1) entry references movie 7, which does not exist in
`oneMeetingSt`. -/
def fkPayload : VotePayload :=
  { username := "bob", ranks := [⟨7, 1⟩], meetingId := 1, availability := none }

/-- A state for the deletion claims: movie 2 is watched by meeting 1,
movie 1 only sits in meeting 2's allow-list; one ballot per meeting. -/
def deletionSt : State :=
  { movies := [⟨1, "A"⟩, ⟨2, "B"⟩],
    meetings := [{ mkMeeting 1 false with watchedMovieId := some 2 },
                 { mkMeeting 2 true with allowedMovieIds := some [1, 2] }],
    ballots := [
      { id := 1, username := "u", meetingId := 1, availability := none, votes := [⟨1, 1⟩] },
      { id := 2, username := "v", meetingId := 2, availability := none, votes := [⟨2, 1⟩] }],
    reviews := [⟨1, 2, 8⟩], nextMovieId := 3, nextMeetingId := 3, nextBallotId := 3 }

/-- A patch body that only closes voting. -/
def closeBody : PatchBody :=
  { votingOpen := some false, name := none, candidateDays := none,
    allowedMovieIds := none }

/-- A resolution step that throws before writing anything. -/
def throwingResolve : State → Nat → State × Option String :=
  fun s _ => (s, some "resolution failed")

/-- A movie-creation payload with a proper IMDB link. -/
def matrixPayload : MoviePayload :=
  { title := "The Matrix", poster := "https://www.imdb.com/title/tt0133093/" }

/-! ## Helper lemmas -/

theorem find_map_update (l : List Meeting) (mid : Nat) (f : Meeting → Meeting)
    (hf : ∀ x, (f x).id = x.id) :
    (l.map (fun m => if m.id == mid then f m else m)).find? (fun m => m.id == mid)
      = (l.find? (fun m => m.id == mid)).map f := by
  induction l with
  | nil => simp
  | cons x xs ih =>
    by_cases h : x.id = mid
    · have hx : (x.id == mid) = true := by simpa using h
      have hfx : ((f x).id == mid) = true := by simpa [hf x] using h
      have hgx : (if (x.id == mid) = true then f x else x) = f x := by simp [hx]
      rw [List.map_cons, hgx]
      simp [List.find?, hfx, hx]
    · have hx : (x.id == mid) = false := by simpa using h
      have hgx : (if (x.id == mid) = true then f x else x) = x := by simp [hx]
      rw [List.map_cons, hgx]
      simp only [List.find?, hx]
      exact ih

theorem findMeeting_updateMeeting (st : State) (mid : Nat) (f : Meeting → Meeting)
    (hf : ∀ x, (f x).id = x.id) :
    findMeeting (updateMeeting st mid f) mid = (findMeeting st mid).map f := by
  unfold findMeeting updateMeeting
  exact find_map_update st.meetings mid f hf

theorem findMeeting_mem_id (st : State) (mid : Nat) (m : Meeting)
    (h : findMeeting st mid = some m) : m ∈ st.meetings ∧ m.id = mid := by
  unfold findMeeting at h
  refine ⟨List.mem_of_find?_eq_some h, ?_⟩
  have := List.find?_some h
  simpa using this

theorem checkVotes_isOk (l : List RankEntry) :
    (checkVotes l).isOk = true ↔ ∀ r ∈ l, r.rank ≠ 0 ∧ r.movieId ≠ 0 := by
  induction l with
  | nil => simp [checkVotes, Except.isOk, Except.toBool]
  | cons r rest ih =>
    by_cases h : r.rank = 0 ∨ r.movieId = 0
    · have hb : (r.rank == 0 || r.movieId == 0) = true := by
        rcases h with h | h <;> simp [h]
      simp only [checkVotes, hb, if_true]
      constructor
      · intro hc; cases hc
      · intro hall
        rcases hall r (by simp) with ⟨h1, h2⟩
        rcases h with h | h
        · exact absurd h h1
        · exact absurd h h2
    · push_neg at h
      have hb : (r.rank == 0 || r.movieId == 0) = false := by
        simp [h.1, h.2]
      simp only [checkVotes, hb, Bool.false_eq_true, if_false]
      cases hrest : checkVotes rest with
      | ok vs =>
        simp only [Except.isOk, Except.toBool]
        constructor
        · intro _
          intro x hx
          rcases List.mem_cons.mp hx with rfl | hx
          · exact ⟨h.1, h.2⟩
          · exact (ih.mp (by simp [hrest, Except.isOk, Except.toBool])) x hx
        · intro _; trivial
      | error e =>
        simp only [Except.isOk, Except.toBool]
        constructor
        · intro hc; cases hc
        · intro hall
          have : (checkVotes rest).isOk = true := by
            refine ih.mpr ?_
            intro x hx; exact hall x (List.mem_cons_of_mem _ hx)
          rw [hrest] at this
          simp [Except.isOk, Except.toBool] at this

theorem checkVotes_ok_eq :
    ∀ l l' : List RankEntry, checkVotes l = .ok l' → l' = l := by
  intro l
  induction l with
  | nil => intro l' h; simpa [checkVotes] using h.symm
  | cons r rest ih =>
    intro l' h
    by_cases hb : (r.rank == 0 || r.movieId == 0) = true
    · simp [checkVotes, hb] at h
    · rw [Bool.not_eq_true] at hb
      simp only [checkVotes, hb, Bool.false_eq_true, if_false] at h
      cases hrest : checkVotes rest with
      | ok vs =>
        rw [hrest] at h
        cases h
        rw [ih vs hrest]
      | error e => rw [hrest] at h; cases h

theorem checkVotesFk_isOk (ids : List Nat) (l : List RankEntry) :
    (checkVotesFk ids l).isOk = true ↔
      ∀ r ∈ l, (r.rank ≠ 0 ∧ r.movieId ≠ 0) ∧ r.movieId ∈ ids := by
  induction l with
  | nil => simp [checkVotesFk, Except.isOk, Except.toBool]
  | cons r rest ih =>
    by_cases h : r.rank = 0 ∨ r.movieId = 0
    · have hb : (r.rank == 0 || r.movieId == 0) = true := by
        rcases h with h | h <;> simp [h]
      simp only [checkVotesFk, hb, if_true]
      constructor
      · intro hc; cases hc
      · intro hall
        rcases hall r (by simp) with ⟨⟨h1, h2⟩, _⟩
        rcases h with h | h
        · exact absurd h h1
        · exact absurd h h2
    · push_neg at h
      have hb : (r.rank == 0 || r.movieId == 0) = false := by
        simp [h.1, h.2]
      simp only [checkVotesFk, hb, Bool.false_eq_true, if_false]
      by_cases hfk : (ids.contains r.movieId) = true
      · have hmem : r.movieId ∈ ids := by simpa using hfk
        have hfkb : (!(ids.contains r.movieId)) = false := by simpa using hmem
        simp only [hfkb, Bool.false_eq_true, if_false]
        cases hrest : checkVotesFk ids rest with
        | ok vs =>
          simp only [Except.isOk, Except.toBool]
          constructor
          · intro _
            intro x hx
            rcases List.mem_cons.mp hx with rfl | hx
            · exact ⟨⟨h.1, h.2⟩, hmem⟩
            · exact (ih.mp (by simp [hrest, Except.isOk, Except.toBool])) x hx
          · intro _; trivial
        | error e =>
          simp only [Except.isOk, Except.toBool]
          constructor
          · intro hc; cases hc
          · intro hall
            have hok : (checkVotesFk ids rest).isOk = true :=
              ih.mpr (fun x hx => hall x (List.mem_cons_of_mem _ hx))
            rw [hrest] at hok
            simp [Except.isOk, Except.toBool] at hok
      · rw [Bool.not_eq_true] at hfk
        have hfkb : (!(ids.contains r.movieId)) = true := by simpa using hfk
        simp only [hfkb, if_true]
        simp only [Except.isOk, Except.toBool]
        constructor
        · intro hc; cases hc
        · intro hall
          have hmem : r.movieId ∈ ids := (hall r (by simp)).2
          have hc : ids.contains r.movieId = true := by simpa using hmem
          rw [hfk] at hc
          cases hc

theorem checkVotesFk_ok_eq (ids : List Nat) :
    ∀ l l' : List RankEntry, checkVotesFk ids l = .ok l' → l' = l := by
  intro l
  induction l with
  | nil => intro l' h; simpa [checkVotesFk] using h.symm
  | cons r rest ih =>
    intro l' h
    by_cases hb : (r.rank == 0 || r.movieId == 0) = true
    · simp [checkVotesFk, hb] at h
    · rw [Bool.not_eq_true] at hb
      simp only [checkVotesFk, hb, Bool.false_eq_true, if_false] at h
      by_cases hfk : (!(ids.contains r.movieId)) = true
      · simp only [hfk, if_true] at h
        cases h
      · rw [Bool.not_eq_true] at hfk
        simp only [hfk, Bool.false_eq_true, if_false] at h
        cases hrest : checkVotesFk ids rest with
        | ok vs =>
          rw [hrest] at h
          cases h
          rw [ih vs hrest]
        | error e => rw [hrest] at h; cases h

/-- Success characterisation of `submitBallot`: every guard of the
handler, in order. -/
theorem submitBallot_ok_iff (st : State) (p : VotePayload) :
    (submitBallot st p).isOk = true ↔
      (p.username ≠ "" ∧ 1 ≤ p.ranks.length ∧ p.ranks.length ≤ 3 ∧
       p.meetingId ≠ 0 ∧
       (∃ m, findMeeting st p.meetingId = some m ∧ m.votingOpen = true) ∧
       (p.ranks.map RankEntry.movieId).Nodup ∧
       ∀ r ∈ p.ranks, r.rank ≠ 0 ∧ r.movieId ≠ 0) := by
  constructor
  · intro hok
    by_cases h1 : p.username = ""
    · simp [submitBallot, h1, Except.isOk, Except.toBool] at hok
    · have h1b : (p.username == "") = false := by simpa using h1
      by_cases h2 : p.ranks.length = 0
      · simp [submitBallot, h1b, h2, Except.isOk, Except.toBool] at hok
      · have h2b : (p.ranks.length == 0) = false := by simpa using h2
        by_cases h3 : p.ranks.length > 3
        · simp [submitBallot, h1b, h2b, h3, Except.isOk, Except.toBool] at hok
        · by_cases h4 : p.meetingId = 0
          · simp [submitBallot, h1b, h2b, h3, h4, Except.isOk, Except.toBool] at hok
          · have h4b : (p.meetingId == 0) = false := by simpa using h4
            cases hf : findMeeting st p.meetingId with
            | none =>
              simp [submitBallot, h1b, h2b, h3, h4b, hf,
                Except.isOk, Except.toBool] at hok
            | some m =>
              by_cases h5 : m.votingOpen = true
              · by_cases h6 : (p.ranks.map RankEntry.movieId).Nodup
                · cases hcv : checkVotes p.ranks with
                  | ok vs =>
                    have hall := (checkVotes_isOk p.ranks).mp
                      (by simp [hcv, Except.isOk, Except.toBool])
                    exact ⟨h1, by omega, by omega, h4, ⟨m, rfl, h5⟩, h6, hall⟩
                  | error e =>
                    simp [submitBallot, h1b, h2b, h3, h4b, hf, h5, h6, hcv,
                      Except.isOk, Except.toBool] at hok
                · simp [submitBallot, h1b, h2b, h3, h4b, hf, h5, h6,
                    Except.isOk, Except.toBool] at hok
              · have h5b : m.votingOpen = false := by
                  cases hv : m.votingOpen
                  · rfl
                  · exact absurd hv h5
                simp [submitBallot, h1b, h2b, h3, h4b, hf, h5b,
                  Except.isOk, Except.toBool] at hok
  · rintro ⟨h1, h2, h3, h4, ⟨m, hf, h5⟩, h6, h7⟩
    have h1b : (p.username == "") = false := by simpa using h1
    have h2b : (p.ranks.length == 0) = false := by
      simp only [beq_eq_false_iff_ne, ne_eq]
      omega
    have h3b : ¬ p.ranks.length > 3 := by omega
    have h4b : (p.meetingId == 0) = false := by simpa using h4
    cases hcv : checkVotes p.ranks with
    | ok vs =>
      simp [submitBallot, h1b, h2b, h3b, h4b, hf, h5, h6, hcv,
        Except.isOk, Except.toBool]
    | error e =>
      have : (checkVotes p.ranks).isOk = true := (checkVotes_isOk p.ranks).mpr h7
      rw [hcv] at this
      simp [Except.isOk, Except.toBool] at this

/-- Success shape of `submitBallot`: the whole ballot with all its rank
entries is appended, and nothing else in the store moves. -/
theorem submitBallot_ok_shape (st : State) (p : VotePayload) (st' : State) (bid : Nat)
    (h : submitBallot st p = .ok (st', bid)) :
    st'.ballots = st.ballots ++
      [{ id := st.nextBallotId, username := p.username, meetingId := p.meetingId,
         availability := p.availability, votes := p.ranks }] ∧
    st'.movies = st.movies ∧ st'.meetings = st.meetings ∧
    st'.reviews = st.reviews ∧ bid = st.nextBallotId := by
  by_cases h1 : (p.username == "") = true
  · simp [submitBallot, h1] at h
  · rw [Bool.not_eq_true] at h1
    by_cases h2 : (p.ranks.length == 0) = true
    · simp [submitBallot, h1, h2] at h
    · rw [Bool.not_eq_true] at h2
      by_cases h3 : p.ranks.length > 3
      · simp [submitBallot, h1, h2, h3] at h
      · by_cases h4 : (p.meetingId == 0) = true
        · simp [submitBallot, h1, h2, h3, h4] at h
        · rw [Bool.not_eq_true] at h4
          cases hf : findMeeting st p.meetingId with
          | none => simp [submitBallot, h1, h2, h3, h4, hf] at h
          | some m =>
            by_cases h5 : m.votingOpen = true
            · by_cases h6 : (p.ranks.map RankEntry.movieId).Nodup
              · cases hcv : checkVotes p.ranks with
                | ok vs =>
                  have hvs : vs = p.ranks := checkVotes_ok_eq _ _ hcv
                  simp only [submitBallot, h1, h2, h3, h4, hf, h5, h6, hcv,
                    Bool.false_eq_true, if_false, decide_True, Bool.not_true,
                    decide_False, Bool.not_false, if_true] at h
                  cases h
                  subst hvs
                  exact ⟨rfl, rfl, rfl, rfl, rfl⟩
                | error e =>
                  simp [submitBallot, h1, h2, h3, h4, hf, h5, h6, hcv] at h
              · simp [submitBallot, h1, h2, h3, h4, hf, h5, h6] at h
            · have h5b : m.votingOpen = false := by
                cases hv : m.votingOpen
                · rfl
                · exact absurd hv h5
              simp [submitBallot, h1, h2, h3, h4, hf, h5b] at h

/-- Success characterisation of `submitBallotSql`: every guard of the
handler in order, the per-entry truthiness throw, and the enforced
`ballot_votes.movie_id` foreign key. -/
theorem submitBallotSql_ok_iff (st : State) (p : VotePayload) :
    (submitBallotSql st p).isOk = true ↔
      (p.username ≠ "" ∧ 1 ≤ p.ranks.length ∧ p.ranks.length ≤ 3 ∧
       p.meetingId ≠ 0 ∧
       (∃ m, findMeeting st p.meetingId = some m ∧ m.votingOpen = true) ∧
       (p.ranks.map RankEntry.movieId).Nodup ∧
       ∀ r ∈ p.ranks, (r.rank ≠ 0 ∧ r.movieId ≠ 0) ∧
         r.movieId ∈ st.movies.map Movie.id) := by
  constructor
  · intro hok
    by_cases h1 : p.username = ""
    · simp [submitBallotSql, h1, Except.isOk, Except.toBool] at hok
    · have h1b : (p.username == "") = false := by simpa using h1
      by_cases h2 : p.ranks.length = 0
      · simp [submitBallotSql, h1b, h2, Except.isOk, Except.toBool] at hok
      · have h2b : (p.ranks.length == 0) = false := by simpa using h2
        by_cases h3 : p.ranks.length > 3
        · simp [submitBallotSql, h1b, h2b, h3, Except.isOk, Except.toBool] at hok
        · by_cases h4 : p.meetingId = 0
          · simp [submitBallotSql, h1b, h2b, h3, h4, Except.isOk, Except.toBool] at hok
          · have h4b : (p.meetingId == 0) = false := by simpa using h4
            cases hf : findMeeting st p.meetingId with
            | none =>
              simp [submitBallotSql, h1b, h2b, h3, h4b, hf,
                Except.isOk, Except.toBool] at hok
            | some m =>
              by_cases h5 : m.votingOpen = true
              · by_cases h6 : (p.ranks.map RankEntry.movieId).Nodup
                · cases hcv : checkVotesFk (st.movies.map Movie.id) p.ranks with
                  | ok vs =>
                    have hall := (checkVotesFk_isOk (st.movies.map Movie.id) p.ranks).mp
                      (by simp [hcv, Except.isOk, Except.toBool])
                    exact ⟨h1, by omega, by omega, h4, ⟨m, rfl, h5⟩, h6, hall⟩
                  | error e =>
                    simp [submitBallotSql, h1b, h2b, h3, h4b, hf, h5, h6, hcv,
                      Except.isOk, Except.toBool] at hok
                · simp [submitBallotSql, h1b, h2b, h3, h4b, hf, h5, h6,
                    Except.isOk, Except.toBool] at hok
              · have h5b : m.votingOpen = false := by
                  cases hv : m.votingOpen
                  · rfl
                  · exact absurd hv h5
                simp [submitBallotSql, h1b, h2b, h3, h4b, hf, h5b,
                  Except.isOk, Except.toBool] at hok
  · rintro ⟨h1, h2, h3, h4, ⟨m, hf, h5⟩, h6, h7⟩
    have h1b : (p.username == "") = false := by simpa using h1
    have h2b : (p.ranks.length == 0) = false := by
      simp only [beq_eq_false_iff_ne, ne_eq]
      omega
    have h3b : ¬ p.ranks.length > 3 := by omega
    have h4b : (p.meetingId == 0) = false := by simpa using h4
    cases hcv : checkVotesFk (st.movies.map Movie.id) p.ranks with
    | ok vs =>
      simp [submitBallotSql, h1b, h2b, h3b, h4b, hf, h5, h6, hcv,
        Except.isOk, Except.toBool]
    | error e =>
      have hok : (checkVotesFk (st.movies.map Movie.id) p.ranks).isOk = true :=
        (checkVotesFk_isOk (st.movies.map Movie.id) p.ranks).mpr h7
      rw [hcv] at hok
      simp [Except.isOk, Except.toBool] at hok

/-- Success shape of `submitBallotSql`: the whole ballot with all its
rank entries is committed, and nothing else in the store moves. -/
theorem submitBallotSql_ok_shape (st : State) (p : VotePayload) (st' : State)
    (bid : Nat) (h : submitBallotSql st p = .ok (st', bid)) :
    st'.ballots = st.ballots ++
      [{ id := st.nextBallotId, username := p.username, meetingId := p.meetingId,
         availability := p.availability, votes := p.ranks }] ∧
    st'.movies = st.movies ∧ st'.meetings = st.meetings ∧
    st'.reviews = st.reviews ∧ bid = st.nextBallotId := by
  by_cases h1 : (p.username == "") = true
  · simp [submitBallotSql, h1] at h
  · rw [Bool.not_eq_true] at h1
    by_cases h2 : (p.ranks.length == 0) = true
    · simp [submitBallotSql, h1, h2] at h
    · rw [Bool.not_eq_true] at h2
      by_cases h3 : p.ranks.length > 3
      · simp [submitBallotSql, h1, h2, h3] at h
      · by_cases h4 : (p.meetingId == 0) = true
        · simp [submitBallotSql, h1, h2, h3, h4] at h
        · rw [Bool.not_eq_true] at h4
          cases hf : findMeeting st p.meetingId with
          | none => simp [submitBallotSql, h1, h2, h3, h4, hf] at h
          | some m =>
            by_cases h5 : m.votingOpen = true
            · by_cases h6 : (p.ranks.map RankEntry.movieId).Nodup
              · cases hcv : checkVotesFk (st.movies.map Movie.id) p.ranks with
                | ok vs =>
                  have hvs : vs = p.ranks := checkVotesFk_ok_eq _ _ _ hcv
                  simp only [submitBallotSql, h1, h2, h3, h4, hf, h5, h6, hcv,
                    Bool.false_eq_true, if_false, decide_True, Bool.not_true,
                    decide_False, Bool.not_false, if_true] at h
                  cases h
                  subst hvs
                  exact ⟨rfl, rfl, rfl, rfl, rfl⟩
                | error e =>
                  simp [submitBallotSql, h1, h2, h3, h4, hf, h5, h6, hcv] at h
              · simp [submitBallotSql, h1, h2, h3, h4, hf, h5, h6] at h
            · have h5b : m.votingOpen = false := by
                cases hv : m.votingOpen
                · rfl
                · exact absurd hv h5
              simp [submitBallotSql, h1, h2, h3, h4, hf, h5b] at h

/-- Every count in a bumped tally is positive. -/
theorem bumpDate_pos (l : List (String × Nat)) (d : String)
    (hl : ∀ p ∈ l, 1 ≤ p.2) : ∀ p ∈ bumpDate l d, 1 ≤ p.2 := by
  induction l with
  | nil =>
    intro p hp
    simp [bumpDate] at hp
    simp [hp]
  | cons q rest ih =>
    obtain ⟨k, c⟩ := q
    intro p hp
    by_cases h : (k == d) = true
    · simp only [bumpDate, h, if_true] at hp
      rcases List.mem_cons.mp hp with rfl | hp
      · simp
      · exact hl p (List.mem_cons_of_mem _ hp)
    · rw [Bool.not_eq_true] at h
      simp only [bumpDate, h, Bool.false_eq_true, if_false] at hp
      rcases List.mem_cons.mp hp with rfl | hp
      · exact hl (k, c) (by simp)
      · exact ih (fun q hq => hl q (List.mem_cons_of_mem _ hq)) p hp

/-- Every key of a bumped tally is the new date or an old key. -/
theorem bumpDate_keys (l : List (String × Nat)) (d : String) :
    ∀ p ∈ bumpDate l d, p.1 = d ∨ p.1 ∈ l.map Prod.fst := by
  induction l with
  | nil =>
    intro p hp
    simp [bumpDate] at hp
    simp [hp]
  | cons q rest ih =>
    obtain ⟨k, c⟩ := q
    intro p hp
    by_cases h : (k == d) = true
    · simp only [bumpDate, h, if_true] at hp
      rcases List.mem_cons.mp hp with rfl | hp
      · right; simp
      · right; simpa using Or.inr (List.mem_map_of_mem Prod.fst hp)
    · rw [Bool.not_eq_true] at h
      simp only [bumpDate, h, Bool.false_eq_true, if_false] at hp
      rcases List.mem_cons.mp hp with rfl | hp
      · right; simp
      · rcases ih p hp with hd | hk
        · exact Or.inl hd
        · right; simpa using Or.inr (by simpa using hk)

/-- Invariants of the availability-tally fold: positive counts, and
every key was listed by some processed ballot. -/
theorem tallyFold_inv (days : List String) (acc : List (String × Nat))
    (hacc : ∀ p ∈ acc, 1 ≤ p.2) :
    ∀ p ∈ days.foldl bumpDate acc, 1 ≤ p.2 := by
  induction days generalizing acc with
  | nil => exact hacc
  | cons d rest ih =>
    intro p hp
    exact ih (bumpDate acc d) (bumpDate_pos acc d hacc) p hp

theorem tallyDates_pos (st : State) (mid : Nat) :
    ∀ p ∈ tallyDates st mid, 1 ≤ p.2 := by
  unfold tallyDates
  generalize (st.ballots.filter fun b => b.meetingId == mid && b.availability.isSome) = bs
  have : ∀ (bs : List Ballot) (acc : List (String × Nat)),
      (∀ p ∈ acc, 1 ≤ p.2) →
      ∀ p ∈ bs.foldl (fun acc b => (b.availability.getD []).foldl bumpDate acc) acc,
        1 ≤ p.2 := by
    intro bs
    induction bs with
    | nil => intro acc hacc; exact hacc
    | cons b rest ih =>
      intro acc hacc p hp
      exact ih _ (tallyFold_inv _ _ hacc) p hp
  exact this bs [] (by intro p hp; cases hp)

/-- Specification of the `chosenDate/maxCount` loop: the final count
dominates the starting count and every processed count, and the final
pair is the start or one of the processed entries (tagged `some`). -/
theorem chooseDateAux_spec (l : List (String × Nat)) (cd : Option String) (mc : Nat) :
    (∀ p ∈ l, p.2 ≤ (chooseDateAux (cd, mc) l).2) ∧
    mc ≤ (chooseDateAux (cd, mc) l).2 ∧
    (chooseDateAux (cd, mc) l = (cd, mc) ∨
      ∃ p ∈ l, chooseDateAux (cd, mc) l = (some p.1, p.2)) := by
  induction l generalizing cd mc with
  | nil => exact ⟨(fun p hp => absurd hp (List.not_mem_nil p)), le_refl _, Or.inl rfl⟩
  | cons q rest ih =>
    obtain ⟨d, c⟩ := q
    by_cases h : c > mc
    · have hstep : chooseDateAux (cd, mc) ((d, c) :: rest)
          = chooseDateAux (some d, c) rest := by
        simp [chooseDateAux, h]
      rcases ih (some d) c with ⟨ha, hb, hc⟩
      rw [hstep]
      refine ⟨?_, by omega, ?_⟩
      · intro p hp
        rcases List.mem_cons.mp hp with rfl | hp
        · exact hb
        · exact ha p hp
      · rcases hc with hc | ⟨p, hp, he⟩
        · exact Or.inr ⟨(d, c), by simp, hc⟩
        · exact Or.inr ⟨p, List.mem_cons_of_mem _ hp, he⟩
    · have hstep : chooseDateAux (cd, mc) ((d, c) :: rest)
          = chooseDateAux (cd, mc) rest := by
        simp [chooseDateAux, h]
      rcases ih cd mc with ⟨ha, hb, hc⟩
      rw [hstep]
      refine ⟨?_, hb, ?_⟩
      · intro p hp
        rcases List.mem_cons.mp hp with rfl | hp
        · omega
        · exact ha p hp
      · rcases hc with hc | ⟨p, hp, he⟩
        · exact Or.inl hc
        · exact Or.inr ⟨p, List.mem_cons_of_mem _ hp, he⟩

/-- On a non-empty tally with positive counts the loop picks an entry
with a maximal count. -/
theorem chooseDate_spec (counts : List (String × Nat))
    (hne : counts ≠ []) (hpos : ∀ p ∈ counts, 1 ≤ p.2) :
    ∃ d c, chooseDate counts = some d ∧ (d, c) ∈ counts ∧
      ∀ p ∈ counts, p.2 ≤ c := by
  rcases chooseDateAux_spec counts none 0 with ⟨ha, _, hc⟩
  rcases hc with hc | ⟨p, hp, he⟩
  · rcases counts with _ | ⟨q, rest⟩
    · exact absurd rfl hne
    · have h1 := hpos q (by simp)
      have h2 := ha q (by simp)
      rw [hc] at h2
      omega
  · refine ⟨p.1, p.2, ?_, by simpa using hp, ?_⟩
    · unfold chooseDate
      rw [he]
    · intro q hq
      have := ha q hq
      rw [he] at this
      exact this

/-- Keys of a bumped tally lifted to the key list. -/
theorem bumpDate_keys_map (l : List (String × Nat)) (d : String) (k : String)
    (hk : k ∈ (bumpDate l d).map Prod.fst) : k = d ∨ k ∈ l.map Prod.fst := by
  rcases List.mem_map.mp hk with ⟨q, hq, hqe⟩
  rcases bumpDate_keys l d q hq with h | h
  · exact Or.inl (hqe ▸ h)
  · exact Or.inr (hqe ▸ h)

/-- Every key produced by folding one ballot's day list comes from that
list or from the accumulator. -/
theorem tallyFold_keys (days : List String) (acc : List (String × Nat)) (k : String)
    (hk : k ∈ (days.foldl bumpDate acc).map Prod.fst) :
    k ∈ days ∨ k ∈ acc.map Prod.fst := by
  induction days generalizing acc with
  | nil => exact Or.inr hk
  | cons d rest ih =>
    rcases ih (bumpDate acc d) hk with h | h
    · exact Or.inl (List.mem_cons_of_mem _ h)
    · rcases bumpDate_keys_map acc d k h with h | h
      · exact Or.inl (h ▸ List.mem_cons_self d rest)
      · exact Or.inr h

/-- Every key of the meeting's tally was listed as an availability day
by one of the meeting's ballots. -/
theorem tallyDates_keys (st : State) (mid : Nat) :
    ∀ p ∈ tallyDates st mid, ∃ b ∈ st.ballots,
      b.meetingId = mid ∧ p.1 ∈ b.availability.getD [] := by
  have main : ∀ (bs : List Ballot) (acc : List (String × Nat)) (k : String),
      k ∈ (bs.foldl (fun acc b => (b.availability.getD []).foldl bumpDate acc) acc).map
        Prod.fst →
      (∃ b ∈ bs, k ∈ b.availability.getD []) ∨ k ∈ acc.map Prod.fst := by
    intro bs
    induction bs with
    | nil => intro acc k hk; exact Or.inr hk
    | cons b rest ih =>
      intro acc k hk
      rcases ih _ k hk with ⟨b', hb', hkb⟩ | h
      · exact Or.inl ⟨b', List.mem_cons_of_mem _ hb', hkb⟩
      · rcases tallyFold_keys _ acc k h with h | h
        · exact Or.inl ⟨b, List.mem_cons_self b rest, h⟩
        · exact Or.inr h
  intro p hp
  have hk : p.1 ∈ (tallyDates st mid).map Prod.fst := List.mem_map_of_mem Prod.fst hp
  unfold tallyDates at hk
  rcases main _ [] p.1 hk with ⟨b, hb, hkb⟩ | h
  · rcases List.mem_filter.mp hb with ⟨hbmem, hbp⟩
    have : b.meetingId = mid := by
      have := (Bool.and_eq_true _ _).mp hbp
      simpa using this.1
    exact ⟨b, hbmem, this, hkb⟩
  · simp at h

/-- Counts of the score map are positive. -/
theorem bumpMovie_count_pos (l : List MEntry) (m : Nat) (pts : Int)
    (hl : ∀ e ∈ l, 1 ≤ e.count) : ∀ e ∈ bumpMovie l m pts, 1 ≤ e.count := by
  induction l with
  | nil =>
    intro e he
    simp [bumpMovie] at he
    simp [he]
  | cons x rest ih =>
    intro e he
    by_cases h : (x.movieId == m) = true
    · simp only [bumpMovie, h, if_true] at he
      rcases List.mem_cons.mp he with rfl | he
      · simp
      · exact hl e (List.mem_cons_of_mem _ he)
    · rw [Bool.not_eq_true] at h
      simp only [bumpMovie, h, Bool.false_eq_true, if_false] at he
      rcases List.mem_cons.mp he with rfl | he
      · exact hl e (List.mem_cons_self _ _)
      · exact ih (fun y hy => hl y (List.mem_cons_of_mem _ hy)) e he

/-- Bumping with at-least-one point keeps every score at least one. -/
theorem bumpMovie_score_pos (l : List MEntry) (m : Nat) (pts : Int)
    (hp : 1 ≤ pts) (hl : ∀ e ∈ l, 1 ≤ e.score) :
    ∀ e ∈ bumpMovie l m pts, 1 ≤ e.score := by
  induction l with
  | nil =>
    intro e he
    simp [bumpMovie] at he
    simp [he]
    omega
  | cons x rest ih =>
    intro e he
    by_cases h : (x.movieId == m) = true
    · simp only [bumpMovie, h, if_true] at he
      rcases List.mem_cons.mp he with rfl | he
      · have := hl x (List.mem_cons_self _ _)
        simp only
        omega
      · exact hl e (List.mem_cons_of_mem _ he)
    · rw [Bool.not_eq_true] at h
      simp only [bumpMovie, h, Bool.false_eq_true, if_false] at he
      rcases List.mem_cons.mp he with rfl | he
      · exact hl e (List.mem_cons_self _ _)
      · exact ih (fun y hy => hl y (List.mem_cons_of_mem _ hy)) e he

theorem bumpMovie_ne_nil (l : List MEntry) (m : Nat) (pts : Int) :
    bumpMovie l m pts ≠ [] := by
  cases l with
  | nil => simp [bumpMovie]
  | cons x rest =>
    by_cases h : (x.movieId == m) = true
    · simp [bumpMovie, h]
    · rw [Bool.not_eq_true] at h
      simp [bumpMovie, h]

/-- The score-map fold keeps counts positive. -/
theorem scoreFold_count_pos (vs : List RankEntry) (acc : List MEntry)
    (hacc : ∀ e ∈ acc, 1 ≤ e.count) :
    ∀ e ∈ vs.foldl (fun acc v => bumpMovie acc v.movieId (4 - (v.rank : Int))) acc,
      1 ≤ e.count := by
  induction vs generalizing acc with
  | nil => exact hacc
  | cons v rest ih =>
    intro e he
    exact ih _ (bumpMovie_count_pos _ _ _ hacc) e he

theorem scoreEntries_count_pos (st : State) (mid : Nat) :
    ∀ e ∈ scoreEntries st mid, 1 ≤ e.count := by
  unfold scoreEntries
  exact scoreFold_count_pos _ [] (by intro e he; cases he)

/-- With validator-shaped ranks every score in the map is positive. -/
theorem scoreFold_score_pos (vs : List RankEntry) :
    ∀ acc : List MEntry, (∀ v ∈ vs, 1 ≤ v.rank ∧ v.rank ≤ 3) →
    (∀ e ∈ acc, 1 ≤ e.score) →
    ∀ e ∈ vs.foldl (fun acc v => bumpMovie acc v.movieId (4 - (v.rank : Int))) acc,
      1 ≤ e.score := by
  induction vs with
  | nil => intro acc _ hacc; exact hacc
  | cons v rest ih =>
    intro acc hv hacc e he
    have hp : (1 : Int) ≤ 4 - (v.rank : Int) := by
      have := hv v (List.mem_cons_self _ _)
      omega
    exact ih _ (fun x hx => hv x (List.mem_cons_of_mem _ hx))
      (bumpMovie_score_pos _ _ _ hp hacc) e he

theorem scoreFold_ne_nil (vs : List RankEntry) (acc : List MEntry)
    (hacc : acc ≠ []) :
    vs.foldl (fun acc v => bumpMovie acc v.movieId (4 - (v.rank : Int))) acc ≠ [] := by
  induction vs generalizing acc with
  | nil => exact hacc
  | cons v rest ih => exact ih _ (bumpMovie_ne_nil _ _ _)

theorem scoreEntries_ne_nil (st : State) (mid : Nat) (hne : votesOf st mid ≠ []) :
    scoreEntries st mid ≠ [] := by
  unfold scoreEntries
  cases hv : votesOf st mid with
  | nil => exact absurd hv hne
  | cons v rest =>
    simp only [List.foldl_cons]
    exact scoreFold_ne_nil _ _ (bumpMovie_ne_nil _ _ _)

/-- One-step unfolding of the winner-selection loop. -/
theorem pickTopAux_cons (a : TopAcc) (e : MEntry) (rest : List MEntry) :
    pickTopAux a (e :: rest) =
      if e.score > a.score ∨ (e.score = a.score ∧ e.count > a.count) then
        pickTopAux ⟨some e.movieId, e.score, e.count⟩ rest
      else pickTopAux a rest := rfl

/-- Specification of the winner-selection loop: the final accumulator
(score, count)-lexicographically dominates the start and every processed
entry, and is the start or the image of a processed entry. -/
theorem pickTopAux_spec (l : List MEntry) (a : TopAcc) :
    (∀ e ∈ l, e.score < (pickTopAux a l).score ∨
      (e.score = (pickTopAux a l).score ∧ e.count ≤ (pickTopAux a l).count)) ∧
    (a.score < (pickTopAux a l).score ∨
      (a.score = (pickTopAux a l).score ∧ a.count ≤ (pickTopAux a l).count)) ∧
    (pickTopAux a l = a ∨
      ∃ e ∈ l, pickTopAux a l = ⟨some e.movieId, e.score, e.count⟩) := by
  induction l generalizing a with
  | nil =>
    exact ⟨(fun e he => absurd he (List.not_mem_nil e)),
      Or.inr ⟨rfl, le_refl _⟩, Or.inl rfl⟩
  | cons e rest ih =>
    by_cases hb : e.score > a.score ∨ (e.score = a.score ∧ e.count > a.count)
    · have hstep : pickTopAux a (e :: rest)
          = pickTopAux ⟨some e.movieId, e.score, e.count⟩ rest := by
        rw [pickTopAux_cons, if_pos hb]
      rcases ih ⟨some e.movieId, e.score, e.count⟩ with ⟨ha, hmono, hform⟩
      have hmono' : e.score < (pickTopAux ⟨some e.movieId, e.score, e.count⟩ rest).score ∨
          (e.score = (pickTopAux ⟨some e.movieId, e.score, e.count⟩ rest).score ∧
            e.count ≤ (pickTopAux ⟨some e.movieId, e.score, e.count⟩ rest).count) :=
        hmono
      rw [hstep]
      refine ⟨?_, ?_, ?_⟩
      · intro x hx
        rcases List.mem_cons.mp hx with rfl | hx
        · exact hmono'
        · exact ha x hx
      · rcases hmono' with h | h <;> rcases hb with hb | hb
        · left; omega
        · left; omega
        · left; omega
        · right; exact ⟨by omega, by omega⟩
      · rcases hform with hform | ⟨x, hx, he⟩
        · exact Or.inr ⟨e, List.mem_cons_self _ _, hform⟩
        · exact Or.inr ⟨x, List.mem_cons_of_mem _ hx, he⟩
    · have hstep : pickTopAux a (e :: rest) = pickTopAux a rest := by
        rw [pickTopAux_cons, if_neg hb]
      rcases ih a with ⟨ha, hmono, hform⟩
      rw [hstep]
      push_neg at hb
      refine ⟨?_, hmono, ?_⟩
      · intro x hx
        rcases List.mem_cons.mp hx with rfl | hx
        · rcases hmono with h | h
          · left; omega
          · by_cases hs : x.score = a.score
            · right
              refine ⟨by omega, ?_⟩
              have := hb.2 (by omega)
              omega
            · left
              have := hb.1
              omega
        · exact ha x hx
      · rcases hform with hform | ⟨x, hx, he⟩
        · exact Or.inl hform
        · exact Or.inr ⟨x, List.mem_cons_of_mem _ hx, he⟩

/-- `pickTop` inherits the loop specification (start `⟨none, -1, 0⟩`). -/
theorem pickTop_spec (l : List MEntry) :
    (∀ e ∈ l, e.score < (pickTop l).score ∨
      (e.score = (pickTop l).score ∧ e.count ≤ (pickTop l).count)) ∧
    (pickTop l = ⟨none, -1, 0⟩ ∨
      ∃ e ∈ l, pickTop l = ⟨some e.movieId, e.score, e.count⟩) := by
  rcases pickTopAux_spec l ⟨none, -1, 0⟩ with ⟨ha, _, hform⟩
  exact ⟨ha, hform⟩

theorem pickTopAux_some (l : List MEntry) (a : TopAcc)
    (h : a.movieId.isSome = true) : (pickTopAux a l).movieId.isSome = true := by
  induction l generalizing a with
  | nil => exact h
  | cons e rest ih =>
    by_cases hb : e.score > a.score ∨ (e.score = a.score ∧ e.count > a.count)
    · rw [show pickTopAux a (e :: rest)
          = pickTopAux ⟨some e.movieId, e.score, e.count⟩ rest by simp [pickTopAux, hb]]
      exact ih _ (by simp)
    · rw [show pickTopAux a (e :: rest) = pickTopAux a rest by simp [pickTopAux, hb]]
      exact ih _ h

/-- `resolveWinner` unfolded: the selection loop's pick with a positive
vote count. -/
theorem resolveWinner_some_iff (st : State) (mid : Nat) (w : Nat) :
    resolveWinner st mid = some w ↔
      (pickTop (scoreEntries st mid)).movieId = some w ∧
      0 < (pickTop (scoreEntries st mid)).count := by
  simp only [resolveWinner]
  cases h : (pickTop (scoreEntries st mid)).movieId with
  | none => simp
  | some w' =>
    by_cases hc : 0 < (pickTop (scoreEntries st mid)).count
    · simp [hc]
    · simp [hc]

/-- A written winner is a (score, count)-lexicographic maximum of the
meeting's score map and has at least one vote. -/
theorem resolveWinner_max (st : State) (mid : Nat) (w : Nat)
    (hw : resolveWinner st mid = some w) :
    ∃ e ∈ scoreEntries st mid, e.movieId = w ∧ 1 ≤ e.count ∧
      ∀ e' ∈ scoreEntries st mid, e'.score < e.score ∨
        (e'.score = e.score ∧ e'.count ≤ e.count) := by
  rcases (resolveWinner_some_iff st mid w).mp hw with ⟨hmv, hc⟩
  rcases (pickTop_spec (scoreEntries st mid)).2 with hform | ⟨e, he, hee⟩
  · rw [hform] at hmv
    simp at hmv
  · have hmve : (pickTop (scoreEntries st mid)).movieId = some e.movieId := by
      rw [hee]
    rw [hmve] at hmv
    have hew : e.movieId = w := by
      exact Option.some.inj hmv
    have hsc : (pickTop (scoreEntries st mid)).score = e.score := by rw [hee]
    have hct : (pickTop (scoreEntries st mid)).count = e.count := by rw [hee]
    refine ⟨e, he, hew, by omega, ?_⟩
    intro e' he'
    rcases (pickTop_spec (scoreEntries st mid)).1 e' he' with h1 | h1
    · left; omega
    · right; exact ⟨by omega, by omega⟩

/-- With validator-shaped ranks and at least one vote, a winner is
written. -/
theorem resolveWinner_exists (st : State) (mid : Nat)
    (hvalid : ∀ v ∈ votesOf st mid, 1 ≤ v.rank ∧ v.rank ≤ 3)
    (hne : votesOf st mid ≠ []) : ∃ w, resolveWinner st mid = some w := by
  have hent : scoreEntries st mid ≠ [] := scoreEntries_ne_nil st mid hne
  have hscore : ∀ e ∈ scoreEntries st mid, 1 ≤ e.score := by
    unfold scoreEntries
    exact scoreFold_score_pos _ [] hvalid (by intro e he; cases he)
  have hcount := scoreEntries_count_pos st mid
  cases hl : scoreEntries st mid with
  | nil => exact absurd hl hent
  | cons e0 rest =>
    have hs0 : 1 ≤ e0.score := hscore e0 (hl ▸ List.mem_cons_self _ _)
    have hb : e0.score > (⟨none, -1, 0⟩ : TopAcc).score ∨
        (e0.score = (⟨none, -1, 0⟩ : TopAcc).score ∧
          e0.count > (⟨none, -1, 0⟩ : TopAcc).count) := by
      left
      show e0.score > -1
      omega
    have hred : pickTop (scoreEntries st mid)
        = pickTopAux ⟨some e0.movieId, e0.score, e0.count⟩ rest := by
      show pickTopAux ⟨none, -1, 0⟩ (scoreEntries st mid) = _
      rw [hl, pickTopAux_cons, if_pos hb]
    have hsome : (pickTop (scoreEntries st mid)).movieId.isSome = true := by
      rw [hred]
      exact pickTopAux_some _ _ (by simp)
    rcases Option.isSome_iff_exists.mp hsome with ⟨w, hw⟩
    refine ⟨w, (resolveWinner_some_iff st mid w).mpr ⟨hw, ?_⟩⟩
    rcases (pickTop_spec (scoreEntries st mid)).2 with hform | ⟨e, he, hee⟩
    · rw [hform] at hw
      simp at hw
    · have hcte : (pickTop (scoreEntries st mid)).count = e.count := by rw [hee]
      have := hcount e he
      omega

/-! ## Claim theorems -/

/-- C1 (code bug): "when a meetingId scope is given, only rank entries
from ballots cast in that meeting contribute to that movie's score and
vote count." In `crossMeetingSt` the only ballot was cast in meeting 2
(one rank-1 vote for movie 1); scoping the results query to meeting 1
should give movie 1 score 0 and vote count 0. The `server.js` SQL
reports score 3 and vote count 1 (the meeting filter sits in the second
LEFT JOIN's ON clause, so votes of other meetings' ballots survive into
`SUM(4 - bv.rank)` and `COUNT(bv.id)`; only `COUNT(DISTINCT b.id)` is
scoped), while the per-meeting sum demanded by the spec — and computed
both by the Firestore variant and by `server.js`'s own resolver — is 0.
-/
theorem getResults_scoped_leak :
    sqlScopedScore crossMeetingSt 1 1 = 3 ∧
    sqlScopedVoteCount crossMeetingSt 1 1 = 1 ∧
    sqlScopedBallots crossMeetingSt 1 1 = 0 ∧
    specScopedScore crossMeetingSt 1 1 = 0 ∧
    fsScopedScore crossMeetingSt 1 1 = 0 ∧
    specScopedScore crossMeetingSt 2 1 = 3 ∧
    fsScopedScore crossMeetingSt 2 1 = 3 := by
  decide

/-- C9 counterexample: the claim says every persisted ballot has ranks
in {1,2,3} and at most 3 availability entries. `submitBallot` accepts
`rankFivePayload` — its single entry has rank 5 and its availability
lists four days — and persists it unchanged, so rank 5 reaches the
scorer's input. -/
theorem ballot_rank_range_unchecked :
    (submitBallot oneMeetingSt rankFivePayload).isOk = true ∧
    ((submitBallot oneMeetingSt rankFivePayload).toOption.map
      (fun r => r.1.ballots.map Ballot.votes)) = some [[⟨7, 5⟩]] ∧
    ((submitBallot oneMeetingSt rankFivePayload).toOption.map
      (fun r => r.1.ballots.map Ballot.availability))
        = some [some ["a", "b", "c", "d"]] := by
  decide

/-- C9 (amended): every ballot accepted and persisted by `submitBallot`
has between 1 and 3 rank entries, pairwise distinct movie ids, and every
entry carries a present (nonzero) rank and movie reference — but rank
values are not range-checked and the availability list's length is not
checked, so out-of-range ranks can reach the scorer. -/
theorem accepted_ballot_shape (st : State) (p : VotePayload) (st' : State) (bid : Nat)
    (hok : submitBallot st p = .ok (st', bid)) :
    ∃ b : Ballot, st'.ballots = st.ballots ++ [b] ∧
      1 ≤ b.votes.length ∧ b.votes.length ≤ 3 ∧
      (b.votes.map RankEntry.movieId).Nodup ∧
      ∀ v ∈ b.votes, v.rank ≠ 0 ∧ v.movieId ≠ 0 := by
  have hshape := submitBallot_ok_shape st p st' bid hok
  have hiff := (submitBallot_ok_iff st p).mp (by rw [hok]; rfl)
  rcases hiff with ⟨_, h2, h3, _, _, h6, h7⟩
  exact ⟨_, hshape.1, h2, h3, h6, h7⟩

/-- Witness for the amended C9 theorem at a concretely accepted
payload. -/
theorem accepted_ballot_shape_witness :
    ∃ b : Ballot,
      ({ movies := [⟨1, "A"⟩], meetings := [mkMeeting 1 true],
         ballots := [{ id := 1, username := "alice", meetingId := 1,
                       availability := none, votes := [⟨1, 1⟩] }],
         reviews := [], nextMovieId := 2, nextMeetingId := 2,
         nextBallotId := 2 } : State).ballots = oneMeetingSt.ballots ++ [b] ∧
      1 ≤ b.votes.length ∧ b.votes.length ≤ 3 ∧
      (b.votes.map RankEntry.movieId).Nodup ∧
      ∀ v ∈ b.votes, v.rank ≠ 0 ∧ v.movieId ≠ 0 :=
  accepted_ballot_shape oneMeetingSt okPayload _ 1 (by decide)

/-- C7 counterexample: the claim says *every* meeting or movie mutation
fails with an authorization error without a valid admin token.
`POST /api/movies` is mounted without `requireAdmin` in both variants:
with an empty token store and an absent token the movie is created and
the store mutates. -/
theorem movie_create_unauthorized_ok :
    createMovieApi [] 0 "" oneMeetingSt matrixPayload
      = .ok ({ oneMeetingSt with
               movies := oneMeetingSt.movies ++ [⟨2, "The Matrix"⟩],
               nextMovieId := 3 }, ⟨2, "The Matrix"⟩) := by
  decide

/-- C7 (amended): every meeting mutation (create, patch, delete, mark
watched) and movie deletion answers 401 before reaching any lifecycle
or persistence logic whenever `requireAdmin` rejects the token, and the
middleware accepts exactly the non-empty tokens present in the store
and not yet expired; movie creation, however, is mounted without the
middleware. -/
theorem admin_guard_on_mutations (tokens : List (String × Nat)) (now : Nat)
    (token : String) (e : String)
    (hbad : requireAdminCheck tokens now token = some e) :
    (∀ st p, createMeetingApi tokens now token st p = .error (.unauthorized e)) ∧
    (∀ st mid body, patchMeetingApi tokens now token st mid body
      = .error (.unauthorized e)) ∧
    (∀ st mid, deleteMeetingApi tokens now token st mid = .error (.unauthorized e)) ∧
    (∀ st movieId, deleteMovieApi tokens now token st movieId
      = .error (.unauthorized e)) ∧
    (∀ st mid w, markWatchedApi tokens now token st mid w
      = .error (.unauthorized e)) ∧
    (∀ (tks : List (String × Nat)) (n : Nat) (t : String),
      requireAdminCheck tks n t = none ↔
        t ≠ "" ∧ ∃ exp, lookupToken tks t = some exp ∧ ¬ n > exp) := by
  refine ⟨?_, ?_, ?_, ?_, ?_, ?_⟩
  · intro st p
    simp [createMeetingApi, guardAdmin, hbad]
  · intro st mid body
    simp [patchMeetingApi, guardAdmin, hbad]
  · intro st mid
    simp [deleteMeetingApi, guardAdmin, hbad]
  · intro st movieId
    simp [deleteMovieApi, guardAdmin, hbad]
  · intro st mid w
    simp [markWatchedApi, guardAdmin, hbad]
  · intro tks n t
    unfold requireAdminCheck
    by_cases ht : (t == "") = true
    · simp [ht]
      intro h
      exact absurd (by simpa using ht) h
    · rw [Bool.not_eq_true] at ht
      simp only [ht, Bool.false_eq_true, if_false]
      cases hl : lookupToken tks t with
      | none => simp [ht]
      | some exp =>
        by_cases hexp : n > exp
        · simp [hexp]
        · simp [hexp, ht]
          exact ⟨by simpa using ht, by omega⟩

/-- C2 counterexample: `fkPayload` satisfies every item of the claimed
validator contract against `oneMeetingSt` (non-empty name, one rank
entry carrying both a rank and a movie reference, no duplicates, the
target meeting exists with voting open), yet the SQLite variant rejects
it — the `INSERT INTO ballot_votes` hits the enforced
`movie_id REFERENCES movies(id)` foreign key because movie 7 does not
exist — persisting nothing, while the Firestore variant (which has no
referential constraint) accepts it. So acceptance is not equivalent to
the claim's contract list. -/
theorem submitBallot_fk_rejection :
    ValidBallot oneMeetingSt fkPayload ∧
    submitBallotSql oneMeetingSt fkPayload
      = .error (.badRequest "FOREIGN KEY constraint failed") ∧
    (submitBallot oneMeetingSt fkPayload).isOk = true :=
  ⟨⟨by decide, by decide, by decide, ⟨mkMeeting 1 true, by decide, rfl⟩,
    by decide, by decide⟩, by decide, by decide⟩

/-- C2 (amended): the SQLite variant's `submitBallot` fails — persisting
no ballot and no rank entries, the transaction having rolled back —
exactly when the payload violates the validator contract **or a rank
entry references a movie id absent from the movies table** (the
enforced `ballot_votes.movie_id` foreign key); otherwise the whole
ballot with all its rank entries is committed and nothing else moves.
The Firestore variant, which enforces no referential constraint,
fails exactly on the validator contract alone, with the same
all-or-nothing persistence. (`hwf`: stored meeting ids are
autoincrement/document ids, never the falsy 0.) -/
theorem submitBallot_validation_atomic (st : State) (p : VotePayload)
    (hwf : ∀ m ∈ st.meetings, m.id ≠ 0) :
    ((submitBallotSql st p).isOk = true ↔
      (ValidBallot st p ∧ ∀ r ∈ p.ranks, ∃ mv ∈ st.movies, mv.id = r.movieId)) ∧
    (∀ st' bid, submitBallotSql st p = .ok (st', bid) →
      st'.ballots = st.ballots ++
        [{ id := st.nextBallotId, username := p.username, meetingId := p.meetingId,
           availability := p.availability, votes := p.ranks }] ∧
      st'.movies = st.movies ∧ st'.meetings = st.meetings ∧
      st'.reviews = st.reviews) ∧
    ((submitBallot st p).isOk = true ↔ ValidBallot st p) ∧
    (∀ st' bid, submitBallot st p = .ok (st', bid) →
      st'.ballots = st.ballots ++
        [{ id := st.nextBallotId, username := p.username, meetingId := p.meetingId,
           availability := p.availability, votes := p.ranks }] ∧
      st'.movies = st.movies ∧ st'.meetings = st.meetings ∧
      st'.reviews = st.reviews) := by
  have hmid : (∃ m, findMeeting st p.meetingId = some m ∧ m.votingOpen = true) →
      p.meetingId ≠ 0 := by
    rintro ⟨m, hm, _⟩ h0
    have hmm := findMeeting_mem_id st p.meetingId m hm
    exact hwf m hmm.1 (h0 ▸ hmm.2)
  refine ⟨?_, ?_, ?_, ?_⟩
  · rw [submitBallotSql_ok_iff]
    unfold ValidBallot
    constructor
    · rintro ⟨h1, h2, h3, _, h5, h6, h7⟩
      refine ⟨⟨h1, h2, h3, h5, h6, fun r hr => (h7 r hr).1⟩, fun r hr => ?_⟩
      rcases List.mem_map.mp (h7 r hr).2 with ⟨mv, hmv, he⟩
      exact ⟨mv, hmv, he⟩
    · rintro ⟨⟨h1, h2, h3, ⟨m, hm, ho⟩, h6, h7⟩, hfk⟩
      refine ⟨h1, h2, h3, hmid ⟨m, hm, ho⟩, ⟨m, hm, ho⟩, h6,
        fun r hr => ⟨h7 r hr, ?_⟩⟩
      rcases hfk r hr with ⟨mv, hmv, he⟩
      exact List.mem_map.mpr ⟨mv, hmv, he⟩
  · intro st' bid h
    have hs := submitBallotSql_ok_shape st p st' bid h
    exact ⟨hs.1, hs.2.1, hs.2.2.1, hs.2.2.2.1⟩
  · rw [submitBallot_ok_iff]
    unfold ValidBallot
    constructor
    · rintro ⟨h1, h2, h3, _, h5, h6, h7⟩
      exact ⟨h1, h2, h3, h5, h6, h7⟩
    · rintro ⟨h1, h2, h3, ⟨m, hm, ho⟩, h6, h7⟩
      exact ⟨h1, h2, h3, hmid ⟨m, hm, ho⟩, ⟨m, hm, ho⟩, h6, h7⟩
  · intro st' bid h
    have hs := submitBallot_ok_shape st p st' bid h
    exact ⟨hs.1, hs.2.1, hs.2.2.1, hs.2.2.2.1⟩

/-- Witness for the amended C2 at a concretely valid payload (ranking
the existing movie 1) against a one-meeting store. -/
theorem submitBallot_validation_atomic_witness :
    ((submitBallotSql oneMeetingSt okPayload).isOk = true ↔
      (ValidBallot oneMeetingSt okPayload ∧
        ∀ r ∈ okPayload.ranks, ∃ mv ∈ oneMeetingSt.movies, mv.id = r.movieId)) ∧
    (∀ st' bid, submitBallotSql oneMeetingSt okPayload = .ok (st', bid) →
      st'.ballots = oneMeetingSt.ballots ++
        [{ id := oneMeetingSt.nextBallotId, username := okPayload.username,
           meetingId := okPayload.meetingId, availability := okPayload.availability,
           votes := okPayload.ranks }] ∧
      st'.movies = oneMeetingSt.movies ∧ st'.meetings = oneMeetingSt.meetings ∧
      st'.reviews = oneMeetingSt.reviews) ∧
    ((submitBallot oneMeetingSt okPayload).isOk = true ↔
      ValidBallot oneMeetingSt okPayload) ∧
    (∀ st' bid, submitBallot oneMeetingSt okPayload = .ok (st', bid) →
      st'.ballots = oneMeetingSt.ballots ++
        [{ id := oneMeetingSt.nextBallotId, username := okPayload.username,
           meetingId := okPayload.meetingId, availability := okPayload.availability,
           votes := okPayload.ranks }] ∧
      st'.movies = oneMeetingSt.movies ∧ st'.meetings = oneMeetingSt.meetings ∧
      st'.reviews = oneMeetingSt.reviews) :=
  submitBallot_validation_atomic oneMeetingSt okPayload (by decide)

/-- Plumbing: reading the meeting back after resolution applies the
resolver's field update to the stored row. -/
theorem findMeeting_resolveMeetingFs (st : State) (mid : Nat) :
    findMeeting (resolveMeetingFs st mid) mid
      = (findMeeting st mid).map (fun m =>
          { m with
            date := match resolveDate st mid with
              | some d => some d
              | none => m.date,
            watchedMovieId := match resolveWinner st mid with
              | some w => some w
              | none => m.watchedMovieId }) := by
  unfold resolveMeetingFs
  exact findMeeting_updateMeeting st mid _ (fun x => rfl)

/-- C3: at close, the resolver writes a movie only when one is picked
with a strictly positive vote count, and the pick is
(score, vote count)-lexicographically maximal over the meeting-scoped
Borda map; a meeting with zero cast ballots (and generally whenever no
winner is picked) keeps its previous `watched_movie_id`; with
validator-shaped ranks and at least one vote a winner is always
written. -/
theorem resolver_movie_selection (st : State) (mid : Nat) (m : Meeting)
    (hm : findMeeting st mid = some m) :
    ((st.ballots.filter (fun b => b.meetingId == mid)) = [] →
      (findMeeting (resolveMeetingFs st mid) mid).map Meeting.watchedMovieId
        = some m.watchedMovieId) ∧
    (∀ w, resolveWinner st mid = some w →
      (findMeeting (resolveMeetingFs st mid) mid).map Meeting.watchedMovieId
          = some (some w) ∧
      ∃ e ∈ scoreEntries st mid, e.movieId = w ∧ 1 ≤ e.count ∧
        ∀ e' ∈ scoreEntries st mid, e'.score < e.score ∨
          (e'.score = e.score ∧ e'.count ≤ e.count)) ∧
    (resolveWinner st mid = none →
      (findMeeting (resolveMeetingFs st mid) mid).map Meeting.watchedMovieId
        = some m.watchedMovieId) ∧
    ((∀ v ∈ votesOf st mid, 1 ≤ v.rank ∧ v.rank ≤ 3) → votesOf st mid ≠ [] →
      ∃ w, resolveWinner st mid = some w) := by
  have hnone : resolveWinner st mid = none →
      (findMeeting (resolveMeetingFs st mid) mid).map Meeting.watchedMovieId
        = some m.watchedMovieId := by
    intro hwn
    simp [findMeeting_resolveMeetingFs, hm, hwn]
  refine ⟨?_, ?_, hnone, resolveWinner_exists st mid⟩
  · intro hfilter
    have hvotes : votesOf st mid = [] := by
      unfold votesOf
      rw [hfilter]
      rfl
    have hse : scoreEntries st mid = [] := by
      unfold scoreEntries
      rw [hvotes]
      rfl
    have hwn : resolveWinner st mid = none := by
      simp [resolveWinner, hse, pickTop, pickTopAux]
    exact hnone hwn
  · intro w hw
    refine ⟨?_, resolveWinner_max st mid w hw⟩
    simp [findMeeting_resolveMeetingFs, hm, hw]

/-- Witness for C3 on the spec's scenario: movie 1 (6 points, 3 votes)
is written as meeting 1's watched movie. -/
theorem resolver_movie_selection_witness :
    (findMeeting (resolveMeetingFs scenarioSt 1) 1).map Meeting.watchedMovieId
      = some (some 1) :=
  ((resolver_movie_selection scenarioSt 1 (mkMeeting 1 true)
    (by decide)).2.1 1 (by decide)).1

/-- C4: at close, if no ballot of the meeting lists any availability the
meeting's date is left exactly as it was; otherwise (for genuine,
non-empty date strings) the resolver writes a date holding a maximal
availability count, ties resolved to one of the tied dates without
error. -/
theorem resolver_date_selection (st : State) (mid : Nat) (m : Meeting)
    (hm : findMeeting st mid = some m) :
    (tallyDates st mid = [] →
      (findMeeting (resolveMeetingFs st mid) mid).map Meeting.date = some m.date) ∧
    (tallyDates st mid ≠ [] →
      (∀ b ∈ st.ballots, b.meetingId = mid → ∀ d ∈ b.availability.getD [], d ≠ "") →
      ∃ d c, (findMeeting (resolveMeetingFs st mid) mid).map Meeting.date
          = some (some d) ∧ (d, c) ∈ tallyDates st mid ∧
        ∀ p ∈ tallyDates st mid, p.2 ≤ c) := by
  constructor
  · intro htally
    have hrd : resolveDate st mid = none := by
      unfold resolveDate chooseDate
      rw [htally]
      rfl
    simp [findMeeting_resolveMeetingFs, hm, hrd]
  · intro hne hnb
    rcases chooseDate_spec (tallyDates st mid) hne (tallyDates_pos st mid)
      with ⟨d, c, hcd, hmem, hmax⟩
    have hdne : d ≠ "" := by
      rcases tallyDates_keys st mid (d, c) hmem with ⟨b, hb, hbm, hdb⟩
      exact hnb b hb hbm d hdb
    have hrd : resolveDate st mid = some d := by
      unfold resolveDate
      rw [hcd]
      simp [hdne]
    refine ⟨d, c, ?_, hmem, hmax⟩
    simp [findMeeting_resolveMeetingFs, hm, hrd]

/-- Witness for C4 on the spec's scenario: the two candidate days tie at
2 and the first-encountered one is written. -/
theorem resolver_date_selection_witness :
    ∃ d c, (findMeeting (resolveMeetingFs scenarioSt 1) 1).map Meeting.date
        = some (some d) ∧ (d, c) ∈ tallyDates scenarioSt 1 ∧
      ∀ p ∈ tallyDates scenarioSt 1, p.2 ≤ c :=
  (resolver_date_selection scenarioSt 1 (mkMeeting 1 true) (by decide)).2
    (by decide) (by decide)

/-- C5: a PATCH triggers resolution exactly when it sets `voting_open`
to false while the stored flag was true; any other update (re-opening
included) runs no resolution and leaves the previously resolved
`watched_movie_id` and `date` untouched. -/
theorem patch_close_resolution_guard (st : State) (mid : Nat) (m : Meeting)
    (body : PatchBody) (hm : findMeeting st mid = some m) :
    (willCloseVoting m body = true ↔
      (body.votingOpen = some false ∧ m.votingOpen = true)) ∧
    (willCloseVoting m body = true →
      ∃ mu, patchMeeting st mid body
        = .ok (resolveMeetingFs (patchFieldsState st mid body) mid, mu)) ∧
    (willCloseVoting m body = false → hasFields body = true →
      ∃ mu, patchMeeting st mid body = .ok (patchFieldsState st mid body, mu) ∧
        mu.watchedMovieId = m.watchedMovieId ∧ mu.date = m.date) := by
  have hfind1 : findMeeting (patchFieldsState st mid body) mid
      = some (applyPatchFields m body) := by
    unfold patchFieldsState
    rw [findMeeting_updateMeeting st mid (fun mm => applyPatchFields mm body)
      (fun x => rfl), hm]
    rfl
  refine ⟨?_, ?_, ?_⟩
  · cases hbo : body.votingOpen with
    | none => simp [willCloseVoting, hbo]
    | some v =>
      cases v with
      | false => simp [willCloseVoting, hbo]
      | true => simp [willCloseVoting, hbo]
  · intro hwc
    have hhf : hasFields body = true := by
      unfold willCloseVoting at hwc
      cases hbo : body.votingOpen with
      | none => rw [hbo] at hwc; cases hwc
      | some v => simp [hasFields, hbo]
    refine ⟨(findMeeting (resolveMeetingFs (patchFieldsState st mid body) mid) mid).getD
      (applyPatchFields m body), ?_⟩
    simp [patchMeeting, patchMeetingRaw, hm, hhf, hwc]
  · intro hwc hhf
    refine ⟨applyPatchFields m body, ?_, rfl, rfl⟩
    simp [patchMeeting, patchMeetingRaw, hm, hhf, hwc, hfind1]

/-- Witness for C5: closing voting on the scenario meeting runs the
resolver on the state with `voting_open` already written. -/
theorem patch_close_resolution_guard_witness :
    ∃ mu, patchMeeting scenarioSt 1 closeBody
      = .ok (resolveMeetingFs (patchFieldsState scenarioSt 1 closeBody) 1, mu) :=
  (patch_close_resolution_guard scenarioSt 1 (mkMeeting 1 true) closeBody
    (by decide)).2.1 (by decide)

/-- C6: whatever the resolution step does — including throwing at any
point, modelled by an arbitrary step `ρ` returning its partial writes
and a swallowed error, constrained only to not touch `voting_open`
(which the real steps never write) — the close-voting PATCH answers
success with the updated meeting, `voting_open = false` stays persisted,
and no resolution error reaches the caller. -/
theorem close_voting_best_effort (st : State) (mid : Nat) (m : Meeting)
    (body : PatchBody) (hm : findMeeting st mid = some m)
    (hopen : m.votingOpen = true) (hset : body.votingOpen = some false)
    (ρ : State → Nat → State × Option String)
    (hρ : ∀ s i, (findMeeting ((ρ s i).1) i).map Meeting.votingOpen
        = (findMeeting s i).map Meeting.votingOpen) :
    ∃ st' mu, patchMeetingRaw ρ st mid body = .ok (st', mu) ∧
      (findMeeting st' mid).map Meeting.votingOpen = some false ∧
      mu.votingOpen = false := by
  have hwc : willCloseVoting m body = true := by
    simp [willCloseVoting, hset, hopen]
  have hhf : hasFields body = true := by simp [hasFields, hset]
  have hst1 : findMeeting (patchFieldsState st mid body) mid
      = some (applyPatchFields m body) := by
    unfold patchFieldsState
    rw [findMeeting_updateMeeting st mid (fun mm => applyPatchFields mm body)
      (fun x => rfl), hm]
    rfl
  have hvo1 : (applyPatchFields m body).votingOpen = false := by
    simp [applyPatchFields, hset]
  have hmap : (findMeeting ((ρ (patchFieldsState st mid body) mid).1) mid).map
      Meeting.votingOpen = some false := by
    rw [hρ, hst1]
    simp [hvo1]
  cases hx : findMeeting ((ρ (patchFieldsState st mid body) mid).1) mid with
  | none => rw [hx] at hmap; cases hmap
  | some x =>
    have hxv : x.votingOpen = false := by
      rw [hx] at hmap
      simpa using hmap
    refine ⟨(ρ (patchFieldsState st mid body) mid).1, x, ?_, hmap, hxv⟩
    simp [patchMeetingRaw, hm, hhf, hwc, hx]

/-- Witness for C6: a resolution step that throws immediately still
leaves the close successful and `voting_open = false` persisted. -/
theorem close_voting_best_effort_witness :
    ∃ st' mu, patchMeetingRaw throwingResolve scenarioSt 1 closeBody
        = .ok (st', mu) ∧
      (findMeeting st' 1).map Meeting.votingOpen = some false ∧
      mu.votingOpen = false :=
  close_voting_best_effort scenarioSt 1 (mkMeeting 1 true) closeBody
    (by decide) rfl rfl throwingResolve (fun s i => rfl)

/-- C10: deleting an existing meeting removes, in one transaction,
exactly the meeting row and every ballot referencing it (with their
embedded rank entries); movies, reviews, other meetings and other
meetings' ballots are untouched. -/
theorem delete_meeting_frame (st : State) (mid : Nat) (m : Meeting)
    (hm : findMeeting st mid = some m) :
    ∃ st', deleteMeetingSql st mid = .ok st' ∧
      st'.movies = st.movies ∧ st'.reviews = st.reviews ∧
      st'.meetings = st.meetings.filter (fun x => x.id ≠ mid) ∧
      st'.ballots = st.ballots.filter (fun b => b.meetingId ≠ mid) ∧
      (∀ b ∈ st.ballots, b.meetingId ≠ mid → b ∈ st'.ballots) ∧
      (∀ b ∈ st'.ballots, b.meetingId ≠ mid) := by
  refine ⟨{ st with
      ballots := st.ballots.filter (fun b => b.meetingId ≠ mid),
      meetings := st.meetings.filter (fun x => x.id ≠ mid) },
    by simp [deleteMeetingSql, hm], rfl, rfl, rfl, rfl, ?_, ?_⟩
  · intro b hb hbm
    exact List.mem_filter.mpr ⟨hb, by simpa using hbm⟩
  · intro b hb
    have := (List.mem_filter.mp hb).2
    simpa using this

/-- Witness for C10: deleting meeting 1 of the deletion fixture removes
its ballot and nothing else. -/
theorem delete_meeting_frame_witness :
    ∃ st', deleteMeetingSql deletionSt 1 = .ok st' ∧
      st'.movies = deletionSt.movies ∧ st'.reviews = deletionSt.reviews ∧
      st'.meetings = deletionSt.meetings.filter (fun x => x.id ≠ 1) ∧
      st'.ballots = deletionSt.ballots.filter (fun b => b.meetingId ≠ 1) ∧
      (∀ b ∈ deletionSt.ballots, b.meetingId ≠ 1 → b ∈ st'.ballots) ∧
      (∀ b ∈ st'.ballots, b.meetingId ≠ 1) :=
  delete_meeting_frame deletionSt 1 { mkMeeting 1 false with watchedMovieId := some 2 }
    (by decide)

/-- Witness for the C7 admin-guard theorem: a token absent from an
empty store is rejected with "invalid token" everywhere. -/
theorem admin_guard_on_mutations_witness :
    (∀ st p, createMeetingApi [] 0 "x" st p
      = .error (.unauthorized "invalid token")) ∧
    (∀ st mid body, patchMeetingApi [] 0 "x" st mid body
      = .error (.unauthorized "invalid token")) ∧
    (∀ st mid, deleteMeetingApi [] 0 "x" st mid
      = .error (.unauthorized "invalid token")) ∧
    (∀ st movieId, deleteMovieApi [] 0 "x" st movieId
      = .error (.unauthorized "invalid token")) ∧
    (∀ st mid w, markWatchedApi [] 0 "x" st mid w
      = .error (.unauthorized "invalid token")) ∧
    (∀ (tks : List (String × Nat)) (n : Nat) (t : String),
      requireAdminCheck tks n t = none ↔
        t ≠ "" ∧ ∃ exp, lookupToken tks t = some exp ∧ ¬ n > exp) :=
  admin_guard_on_mutations [] 0 "x" "invalid token" (by decide)

